import Mathlib

/-!
Verification of the facial pose creator (Maya scene-automation add-on).

This file shallowly embeds the pose data model and the orchestrator
operations of `facial_pose_animator.py`: pose capture, pose apply with
blending, JSON export/import of pose collections, control discovery with
its pattern-match fallback, name sanitization, and the mutation-ledger
rollback bracket.  Python dictionaries are modelled as association lists
with insert-or-update semantics; live scene state is modelled as partial
maps; numeric attribute values are modelled as rationals; raised
exceptions are modelled with `Except` or explicit outcome fields.
-/

namespace FacialPoseCreator

/-! ### Python dictionaries as association lists -/

/-- Lookup in an association list, matching Python `d[k]` / `d.get(k)`. -/
def dictLookup (k : String) : List (String × α) → Option α
  | [] => none
  | (k', v) :: rest => if k' = k then some v else dictLookup k rest

/-- Insert-or-update, matching Python `d[k] = v`: an existing key keeps its
position and gets the new value, a fresh key is appended at the end. -/
def dictInsert (k : String) (v : α) : List (String × α) → List (String × α)
  | [] => [(k, v)]
  | (k', v') :: rest =>
      if k' = k then (k, v) :: rest else (k', v') :: dictInsert k v rest

/-- Membership test, matching Python `k in d`. -/
def dictContains (k : String) (l : List (String × α)) : Bool :=
  (dictLookup k l).isSome

/-! ### Name sanitization (`_sanitize_pose_name_for_attr`)

The Python code runs four steps:
`re.sub(r'[^a-zA-Z0-9_]', '_', name)`, then `re.sub(r'_+', '_', ...)`,
then `.strip('_')`, then prefixes `'pose_'` when the first remaining
character is neither a letter nor an underscore, finally falling back to
`'custom_pose'` for an empty result. -/

/-- Step 1 of the source: every character outside `[a-zA-Z0-9_]` becomes an
underscore. -/
def replaceNonAlnum (s : List Char) : List Char :=
  s.map (fun c => if c.isAlpha ∨ c.isDigit ∨ c = '_' then c else '_')

/-- Step 2 of the source: each maximal run of underscores collapses to a
single underscore (`re.sub(r'_+', '_', s)`). -/
def collapseUnderscores : List Char → List Char
  | [] => []
  | [c] => [c]
  | c₁ :: c₂ :: rest =>
      if c₁ = '_' ∧ c₂ = '_' then collapseUnderscores (c₂ :: rest)
      else c₁ :: collapseUnderscores (c₂ :: rest)

/-- Step 3 of the source: `.strip('_')` removes leading and trailing
underscores. -/
def stripUnderscores (s : List Char) : List Char :=
  ((s.dropWhile (fun c => c = '_')).reverse.dropWhile (fun c => c = '_')).reverse

/-- The source's `FacialPoseAnimator._sanitize_pose_name_for_attr`. -/
def sanitize_pose_name_for_attr (pose_name : String) : String :=
  let s1 := replaceNonAlnum pose_name.toList
  let s2 := collapseUnderscores s1
  let s3 := stripUnderscores s2
  let s4 :=
    match s3 with
    | [] => s3
    | c :: _ => if ¬c.isAlpha ∧ c ≠ '_' then "pose_".toList ++ s3 else s3
  if s4 = [] then "custom_pose" else String.mk s4

/-- The source's `FacialPoseData.sanitize_attribute_name`: only the
replacement step plus a leading-underscore guard, no collapsing and no
stripping. -/
def sanitize_attribute_name (attribute_name : String) : String :=
  let s1 := replaceNonAlnum attribute_name.toList
  let s2 :=
    match s1 with
    | [] => s1
    | c :: _ => if ¬c.isAlpha ∧ c ≠ '_' then '_' :: s1 else s1
  if s2 = [] then "pose_attr" else String.mk s2

/-- Modelled from the spec sentence for the claim about sanitization, word
for word: replace each non-alphanumeric character with an underscore,
collapse each run of consecutive underscores into one, and prefix a safe
prefix when the result would begin with a digit.  (No stripping step and no
empty fallback are mentioned.) -/
def sanitizeSpecClaim (pose_name : String) : String :=
  let s1 := pose_name.toList.map (fun c => if c.isAlpha ∨ c.isDigit then c else '_')
  let s2 := collapseUnderscores s1
  let s3 :=
    match s2 with
    | [] => s2
    | c :: _ => if c.isDigit then "pose_".toList ++ s2 else s2
  String.mk s3

/-- Collapsing of underscore runs written as a right fold, used by the
amended specification of the sanitizer. -/
def collapseSpec (s : List Char) : List Char :=
  s.foldr (fun c acc => if c = '_' ∧ acc.head? = some '_' then acc else c :: acc) []

/-- Modelled from the amended claim for the sanitizer: replace each
non-alphanumeric character with an underscore, collapse each run of
consecutive underscores into one, strip leading and trailing underscores,
prefix `pose_` when the remaining name begins with a digit, and fall back
to `custom_pose` when nothing remains. -/
def sanitizeSpecAmended (pose_name : String) : String :=
  let s1 := pose_name.toList.map (fun c => if c.isAlpha ∨ c.isDigit then c else '_')
  let s2 := collapseSpec s1
  let s3 := stripUnderscores s2
  let s4 :=
    match s3.head? with
    | some c => if c.isDigit then "pose_".toList ++ s3 else s3
    | none => s3
  if s4.isEmpty then "custom_pose" else String.mk s4

/-! ### Error taxonomy

The source derives all domain errors from `FacialAnimatorError`. -/

/-- The typed domain errors of the source module. -/
inductive FErr
  | controlSelectionError
  | invalidAttributeError
  | driverNodeError
  | fileOperationError
  | objectSetError
  | poseDataError
deriving Repr, DecidableEq

/-! ### Pose data model (`FacialPoseData`) -/

/-- The source's `FacialPoseData` dataclass.  Attribute values are Python
floats, modelled as rationals; the nested dictionaries are association
lists. -/
structure FacialPoseData where
  name : String
  attribute_name : String
  controls : List (String × List (String × Rat))
  description : String := ""
  timestamp : String := ""
  maya_version : String := ""
deriving Repr, DecidableEq

/-- The source's `FacialPoseData.is_valid`:
`bool(self.name and self.attribute_name and self.controls)`. -/
def FacialPoseData.is_valid (p : FacialPoseData) : Bool :=
  decide (p.name ≠ "") && decide (p.attribute_name ≠ "") && !p.controls.isEmpty

/-- A parsed JSON dictionary for one pose record.  Each known dataclass
field is present or absent; `extra_keys` lists keys that are not fields of
the dataclass. -/
structure PoseDict where
  name : Option String := none
  attribute_name : Option String := none
  controls : Option (List (String × List (String × Rat))) := none
  description : Option String := none
  timestamp : Option String := none
  maya_version : Option String := none
  extra_keys : List String := []
deriving Repr, DecidableEq

/-- The source's `FacialPoseData.to_dict` (`dataclasses.asdict`): every
field serialized, no extra keys. -/
def FacialPoseData.to_dict (p : FacialPoseData) : PoseDict :=
  { name := some p.name
    attribute_name := some p.attribute_name
    controls := some p.controls
    description := some p.description
    timestamp := some p.timestamp
    maya_version := some p.maya_version
    extra_keys := [] }

/-- The source's `FacialPoseData.from_dict`, which is `cls(**data)`:
a `TypeError` (modelled as `none`) is raised when the dictionary holds an
unexpected keyword or misses one of the three required fields; the three
optional fields take their dataclass defaults when absent. -/
def FacialPoseData.from_dict (d : PoseDict) : Option FacialPoseData :=
  if !d.extra_keys.isEmpty then none
  else
    match d.name, d.attribute_name, d.controls with
    | some n, some an, some cs =>
        some { name := n
               attribute_name := an
               controls := cs
               description := d.description.getD ""
               timestamp := d.timestamp.getD ""
               maya_version := d.maya_version.getD "" }
    | _, _, _ => none

/-! ### Animator state and persistence -/

/-- The configuration and pose store of `FacialPoseAnimator.__init__`,
with the source's default values. -/
structure Animator where
  facial_driver_node : String := "FacialPoseValue"
  control_pattern : String := "::*_CTRL"
  excluded_nodes : List String := ["GUI", "pup"]
  excluded_attributes : List String := ["scaleX", "scaleY", "scaleZ"]
  tolerance : Rat := 1 / 100
  saved_poses : List (String × FacialPoseData) := []
  pose_storage_file : Option String := none
deriving Repr, DecidableEq

/-- The collection-file shape written by `export_poses_to_file`:
`{version, created_timestamp, maya_version, facial_driver_node,
control_pattern, poses}`.  `poses = none` models a JSON file without the
required `poses` key. -/
structure PosesFile where
  version : String := "1.0"
  created_timestamp : String := ""
  maya_version : String := ""
  facial_driver_node : String := ""
  control_pattern : String := ""
  poses : Option (List (String × PoseDict)) := none
deriving Repr, DecidableEq

/-- The source's `export_poses_to_file`.  With `pose_names = none` all
saved poses are exported; otherwise the dict comprehension
`{name: saved_poses[name] for name in pose_names if name in saved_poses}`
is modelled by a fold of `dictInsert`.  An empty export raises
`PoseDataError`; on success `pose_storage_file` is recorded. -/
def export_poses_to_file (a : Animator) (file_path created_timestamp maya_version : String)
    (pose_names : Option (List String)) : Except FErr (PosesFile × Animator) :=
  let poses_to_export :=
    match pose_names with
    | none => a.saved_poses
    | some names =>
        names.foldl (fun acc n =>
          match dictLookup n a.saved_poses with
          | some p => dictInsert n p acc
          | none => acc) []
  if poses_to_export.isEmpty then .error .poseDataError
  else
    .ok ({ version := "1.0"
           created_timestamp := created_timestamp
           maya_version := maya_version
           facial_driver_node := a.facial_driver_node
           control_pattern := a.control_pattern
           poses := some (poses_to_export.map (fun np => (np.1, np.2.to_dict))) },
         { a with pose_storage_file := some file_path })

/-- One iteration of the import loop of `import_poses_from_file`: the
state is (animator, imported names, skipped names). -/
def importStep (overwrite_existing : Bool)
    (st : Animator × List String × List String) (entry : String × PoseDict) :
    Animator × List String × List String :=
  let a := st.1
  let imported := st.2.1
  let skipped := st.2.2
  if dictContains entry.1 a.saved_poses && !overwrite_existing then
    (a, imported, skipped ++ [entry.1])
  else
    match FacialPoseData.from_dict entry.2 with
    | none => (a, imported, skipped)
    | some p =>
        if !p.is_valid then (a, imported, skipped)
        else ({ a with saved_poses := dictInsert entry.1 p a.saved_poses },
              imported ++ [entry.1], skipped)

/-- The source's `import_poses_from_file` on an already-parsed file.  The
animator is returned alongside the outcome so that the in-memory pose
store after a raised error is still observable. -/
def import_poses_from_file (a : Animator) (file : PosesFile) (file_path : String)
    (overwrite_existing : Bool) : Animator × Except FErr (List String) :=
  match file.poses with
  | none => (a, .error .poseDataError)
  | some entries =>
      let res := entries.foldl (importStep overwrite_existing) (a, [], [])
      if res.2.1.isEmpty then (res.1, .error .poseDataError)
      else ({ res.1 with pose_storage_file := some file_path }, .ok res.2.1)

/-! ### Pose capture (`save_pose_from_selection`) -/

/-- Character-list prefix test, used to model Python's substring
operator. -/
def isPrefixChars : List Char → List Char → Bool
  | [], _ => true
  | _ :: _, [] => false
  | a :: as, b :: bs => a = b && isPrefixChars as bs

/-- Character-list infix test: Python's `needle in hay` on strings. -/
def isInfixChars (needle : List Char) : List Char → Bool
  | [] => isPrefixChars needle []
  | b :: bs => isPrefixChars needle (b :: bs) || isInfixChars needle bs

/-- The source's `_is_valid_control`: the node is rejected when any
excluded-node string occurs as a substring of its name
(`any(excluded in node_name for ...)`). -/
def is_valid_control_name (a : Animator) (node_name : String) : Bool :=
  !(a.excluded_nodes.any (fun ex => isInfixChars ex.toList node_name.toList))

/-- One keyable, visible attribute of a control as seen during capture,
with the state the validity filter inspects and the value `attr.get()`
returns. -/
structure CaptureAttr where
  longName : String
  value : Rat
  locked : Bool := false
  connected : Bool := false
  hidden : Bool := false
  isDouble : Bool := true
deriving Repr, DecidableEq

/-- A control node offered to capture; `attrs` is the list returned by
`control.listAttr(k=True, v=True)`. -/
structure CaptureControl where
  nodeName : String
  attrs : List CaptureAttr
deriving Repr, DecidableEq

/-- The source's `_is_valid_attribute`: not locked, not connected, not
hidden, of a double type, and not on the excluded-attribute list. -/
def is_valid_attribute (a : Animator) (x : CaptureAttr) : Bool :=
  if x.locked || x.connected || x.hidden || !x.isDouble then false
  else !(a.excluded_attributes.contains x.longName)

/-- One iteration of the inner capture loop of `save_pose_from_selection`:
a valid attribute is stored exactly when `abs(current_value) >=
self.tolerance`. -/
def captureStep (a : Animator) (acc : List (String × Rat)) (x : CaptureAttr) :
    List (String × Rat) :=
  if is_valid_attribute a x then
    if a.tolerance ≤ |x.value| then acc ++ [(x.longName, x.value)] else acc
  else acc

/-- The inner capture loop of `save_pose_from_selection` for one control. -/
def captureControlAttrs (a : Animator) (c : CaptureControl) : List (String × Rat) :=
  c.attrs.foldl (captureStep a) []

/-- Whether capture stores this attribute: it passes the validity filter
and its absolute value is at or above the tolerance. -/
def capturesValue (a : Animator) (x : CaptureAttr) : Bool :=
  is_valid_attribute a x && decide (a.tolerance ≤ |x.value|)

/-- One iteration of the outer capture loop: a control enters
`controls_data` only when it has at least one captured attribute. -/
def saveControlsStep (a : Animator) (acc : List (String × List (String × Rat)))
    (c : CaptureControl) : List (String × List (String × Rat)) :=
  let cattrs := captureControlAttrs a c
  if cattrs.isEmpty then acc else dictInsert c.nodeName cattrs acc

/-- The outer capture loop of `save_pose_from_selection`. -/
def saveControlsData (a : Animator) (controls : List CaptureControl) :
    List (String × List (String × Rat)) :=
  controls.foldl (saveControlsStep a) []

/-- The source's `save_pose_from_selection` with `use_current_selection =
True`; the current selection, the timestamp and the Maya version are
inputs.  File auto-save is a side effect outside the pose mapping and is
not modelled. -/
def save_pose_from_selection (a : Animator) (selection : List CaptureControl)
    (pose_name description timestamp maya_version : String) :
    Animator × Except FErr FacialPoseData :=
  if selection.isEmpty then (a, .error .controlSelectionError)
  else
    let valid_controls := selection.filter (fun c => is_valid_control_name a c.nodeName)
    if valid_controls.isEmpty then (a, .error .poseDataError)
    else
      let controls_data := saveControlsData a valid_controls
      if controls_data.isEmpty then (a, .error .poseDataError)
      else
        let pose : FacialPoseData :=
          { name := pose_name
            attribute_name := sanitize_pose_name_for_attr pose_name
            controls := controls_data
            description := description
            timestamp := timestamp
            maya_version := maya_version }
        ({ a with saved_poses := dictInsert pose_name pose a.saved_poses }, .ok pose)

/-! ### Pose apply (`apply_saved_pose`)

The live scene is a partial map from control name to a partial map from
attribute name to attribute state. -/

/-- The live state of one scene attribute as `apply_saved_pose` inspects
it. -/
structure AttrState where
  value : Rat
  locked : Bool := false
  connected : Bool := false
deriving Repr, DecidableEq

/-- A control's live attributes; `none` models
`pm.attributeQuery(..., exists=True)` returning false. -/
abbrev CtrlState := String → Option AttrState

/-- The live scene; `none` models `pm.objExists(control_name)` returning
false. -/
abbrev Scene := String → Option CtrlState

/-- One attribute application from the inner loop of `apply_saved_pose`:
`none` means the attribute is skipped (locked, connected, or
`blend_factor <= 0.0`); otherwise the written state is returned.  The
branch order mirrors the source. -/
def applyAttrOnce (blend target : Rat) (st : AttrState) : Option AttrState :=
  if st.locked || st.connected then none
  else if 1 ≤ blend then some { st with value := target }
  else if blend ≤ 0 then none
  else some { st with value := st.value + (target - st.value) * blend }

/-- One iteration of the attribute loop of `apply_saved_pose`: a missing
attribute is skipped with a warning, otherwise `applyAttrOnce` decides
whether the value is written and the applied count incremented. -/
def applyCtrlStep (blend : Rat) (acc : CtrlState × Nat) (ta : String × Rat) :
    CtrlState × Nat :=
  match acc.1 ta.1 with
  | none => acc
  | some st =>
      match applyAttrOnce blend ta.2 st with
      | none => acc
      | some st' => (fun nm => if nm = ta.1 then some st' else acc.1 nm, acc.2 + 1)

/-- The attribute loop of `apply_saved_pose` over one control, threading
the applied-attribute count. -/
def applyAttrsToCtrl (blend : Rat) (attrs : List (String × Rat))
    (ctrl : CtrlState) (count : Nat) : CtrlState × Nat :=
  attrs.foldl (applyCtrlStep blend) (ctrl, count)

/-- One iteration of the control loop of `apply_saved_pose`: a control
absent from the scene is skipped with a warning. -/
def applySceneStep (blend : Rat) (acc : Scene × Nat)
    (ca : String × List (String × Rat)) : Scene × Nat :=
  match acc.1 ca.1 with
  | none => acc
  | some ctrl =>
      let r := applyAttrsToCtrl blend ca.2 ctrl acc.2
      (fun nm => if nm = ca.1 then some r.1 else acc.1 nm, r.2)

/-- The control loop of `apply_saved_pose`. -/
def applyPoseControls (blend : Rat) (ctrls : List (String × List (String × Rat)))
    (scene : Scene) : Scene × Nat :=
  ctrls.foldl (applySceneStep blend) (scene, 0)

/-- The source's `apply_saved_pose`: an unknown pose name raises
`PoseDataError`; a run that applies zero attributes raises `PoseDataError`
(the scene is then unchanged — nothing was written and the undo chunk is
rolled back); otherwise the call returns `True`. -/
def apply_saved_pose (a : Animator) (scene : Scene) (pose_name : String)
    (blend_factor : Rat) : Scene × Except FErr Bool :=
  match dictLookup pose_name a.saved_poses with
  | none => (scene, .error .poseDataError)
  | some pose =>
      let r := applyPoseControls blend_factor pose.controls scene
      if r.2 = 0 then (scene, .error .poseDataError)
      else (r.1, .ok true)

/-! ### Control discovery (`get_facial_controls`) -/

/-- The source's `ControlSelectionMode` enumeration. -/
inductive ControlSelectionMode
  | patternMode
  | selectionMode
  | objectSetMode
  | metadataMode
deriving Repr, DecidableEq

/-- A scene node as discovery sees it. -/
structure SceneNode where
  nodeName : String
  isTransform : Bool := true
deriving Repr, DecidableEq

/-- The discovery-relevant scene inputs: the current selection, the
transforms matching the control pattern, the object sets, the existing
driver nodes, and the controls connected to each driver node via
metadata. -/
structure DiscoveryScene where
  selection : List SceneNode := []
  pattern_matches : List SceneNode := []
  object_sets : List (String × List SceneNode) := []
  driver_nodes : List String := []
  metadata_controls : List (String × List SceneNode) := []
deriving Repr, DecidableEq

/-- The source's `_get_controls_from_selection`. -/
def get_controls_from_selection (scene : DiscoveryScene) : Except FErr (List SceneNode) :=
  if scene.selection.isEmpty then .error .controlSelectionError
  else
    let controls := scene.selection.filter (fun n => n.isTransform)
    if controls.isEmpty then .error .controlSelectionError else .ok controls

/-- The source's `_get_controls_from_pattern` (`pm.ls(pattern,
type='transform')` already restricts to transforms). -/
def get_controls_from_pattern (scene : DiscoveryScene) : Except FErr (List SceneNode) :=
  if scene.pattern_matches.isEmpty then .error .controlSelectionError
  else .ok scene.pattern_matches

/-- The source's `_get_controls_from_object_set`. -/
def get_controls_from_object_set (a : Animator) (default_object_set : Option String)
    (scene : DiscoveryScene) (object_set_name : Option String) :
    Except FErr (List SceneNode) :=
  match object_set_name.orElse (fun _ => default_object_set) with
  | none => .error .objectSetError
  | some set_name =>
      match dictLookup set_name scene.object_sets with
      | none => .error .objectSetError
      | some members =>
          if members.isEmpty then .error .objectSetError
          else
            let controls := members.filter (fun n => n.isTransform)
            if controls.isEmpty then .error .objectSetError else .ok controls

/-- The source's `_get_controls_from_metadata`: a missing driver node and
an empty connected-control list both raise `DriverNodeError`. -/
def get_controls_from_metadata (a : Animator) (scene : DiscoveryScene)
    (driver_node_name : Option String) : Except FErr (List SceneNode) :=
  let node_name := driver_node_name.getD a.facial_driver_node
  if !(scene.driver_nodes.contains node_name) then .error .driverNodeError
  else
    let controls := (dictLookup node_name scene.metadata_controls).getD []
    if controls.isEmpty then .error .driverNodeError else .ok controls

/-- The source's `get_facial_controls`: mode resolution, the primary
strategy, the pattern-match fallback attempted only when
`mode not in [PATTERN, METADATA]`, and the exclusion filter. -/
def get_facial_controls (a : Animator) (default_mode : ControlSelectionMode)
    (default_object_set : Option String) (scene : DiscoveryScene)
    (mode? : Option ControlSelectionMode) (object_set_name : Option String)
    (use_selection : Bool) : Except FErr (List SceneNode) :=
  let mode :=
    match mode? with
    | none => if use_selection then ControlSelectionMode.selectionMode else default_mode
    | some m => m
  let primary : Except FErr (List SceneNode) :=
    match mode with
    | .selectionMode => get_controls_from_selection scene
    | .objectSetMode => get_controls_from_object_set a default_object_set scene object_set_name
    | .metadataMode => get_controls_from_metadata a scene object_set_name
    | .patternMode => get_controls_from_pattern scene
  let all_controls : Except FErr (List SceneNode) :=
    match primary with
    | .ok cs => .ok cs
    | .error e =>
        if mode = .patternMode ∨ mode = .metadataMode then .error e
        else
          match get_controls_from_pattern scene with
          | .ok cs => .ok cs
          | .error _ => .error .controlSelectionError
  match all_controls with
  | .error e => .error e
  | .ok cs =>
      let valid := cs.filter (fun c => is_valid_control_name a c.nodeName)
      if valid.isEmpty then .error .controlSelectionError else .ok valid

/-! ### Mutation ledger and the undo bracket (`undo_chunk_context`) -/

/-- One scene-graph item created during a tracked operation, in
chronological order of creation. -/
inductive CreatedItem
  | node (name : String)
  | connection (source dest : String)
  | attrItem (node attr : String)
deriving Repr, DecidableEq

/-- The tracking containers of the animator: `created_nodes` is a Python
set (modelled as its iteration order), the other two are lists appended in
creation order. -/
structure Ledger where
  created_nodes : List String := []
  created_connections : List (String × String) := []
  created_attributes : List (String × String) := []
deriving Repr, DecidableEq

/-- The cleared ledger (`clear_undo_tracking`). -/
def Ledger.empty : Ledger := {}

/-- The `_track_created_*` helpers: set insertion for nodes, list append
for connections and attributes. -/
def trackItem (l : Ledger) : CreatedItem → Ledger
  | .node n =>
      if l.created_nodes.contains n then l
      else { l with created_nodes := l.created_nodes ++ [n] }
  | .connection s d => { l with created_connections := l.created_connections ++ [(s, d)] }
  | .attrItem n x => { l with created_attributes := l.created_attributes ++ [(n, x)] }

/-- Recording a chronological event list into the ledger. -/
def recordItems (events : List CreatedItem) (l : Ledger) : Ledger :=
  events.foldl trackItem l

/-- One best-effort undo step issued by `_cleanup_created_items`. -/
inductive UndoAction
  | disconnectAttr (source dest : String)
  | deleteAttr (node attr : String)
  | deleteNode (name : String)
deriving Repr, DecidableEq

/-- The undo sequence of `_cleanup_created_items`: all connections in
reverse list order, then all attributes in reverse list order, then all
nodes in reverse of the set's iteration order. -/
def cleanupActions (l : Ledger) : List UndoAction :=
  l.created_connections.reverse.map (fun sd => UndoAction.disconnectAttr sd.1 sd.2)
    ++ l.created_attributes.reverse.map (fun na => UndoAction.deleteAttr na.1 na.2)
    ++ l.created_nodes.reverse.map UndoAction.deleteNode

/-- The inverse of a single creation, as the spec's reverse-order sentence
reads. -/
def undoOf : CreatedItem → UndoAction
  | .node n => .deleteNode n
  | .connection s d => .disconnectAttr s d
  | .attrItem n x => .deleteAttr n x

/-- Modelled from the spec sentence for the rollback claim: every tracked
item undone in reverse order of its creation, regardless of kind. -/
def specCleanupActions (events : List CreatedItem) : List UndoAction :=
  events.reverse.map undoOf

/-- The observable outcome of one `undo_chunk_context` bracket. -/
structure ChunkOutcome (ε α : Type) where
  result : Except ε α
  finalLedger : Ledger
  undoActions : List UndoAction
deriving Repr

/-- The source's `undo_chunk_context`: the ledger is cleared on entry
(whatever `l0` held), the body's creations are tracked (when tracking is
enabled), a raised exception triggers `_cleanup_created_items` and is
re-raised, and the `finally` block clears the ledger again. -/
def undo_chunk_context {ε α : Type} (l0 : Ledger) (enable_undo_tracking : Bool)
    (body : Except ε α × List CreatedItem) : ChunkOutcome ε α :=
  let clearedAtStart : Ledger := Ledger.empty
  let tracked :=
    if enable_undo_tracking then recordItems body.2 clearedAtStart else clearedAtStart
  match body.1 with
  | .ok v => { result := .ok v, finalLedger := Ledger.empty, undoActions := [] }
  | .error e =>
      { result := .error e
        finalLedger := Ledger.empty
        undoActions := if enable_undo_tracking then cleanupActions tracked else [] }

/-! ### Characterization helpers for the apply loops

These are verification-layer restatements of what the loops compute,
proved equal to the loops below; they are not part of the source. -/

/-- The state one scene attribute ends in after `applyAttrOnce`, with a
skipped attribute left alone. -/
def appliedAttr (blend target : Rat) (st : AttrState) : AttrState :=
  (applyAttrOnce blend target st).getD st

/-- Pointwise description of one control after the attribute loop. -/
def ctrlAfter (blend : Rat) (attrs : List (String × Rat)) (ctrl : CtrlState) : CtrlState :=
  fun nm =>
    match dictLookup nm attrs with
    | none => ctrl nm
    | some t => (ctrl nm).map (appliedAttr blend t)

/-- Pointwise description of the scene after the control loop. -/
def sceneAfter (blend : Rat) (ctrls : List (String × List (String × Rat)))
    (scene : Scene) : Scene :=
  fun c =>
    match dictLookup c ctrls with
    | none => scene c
    | some attrs => (scene c).map (ctrlAfter blend attrs)

/-- Whether `applyAttrOnce` writes this attribute: it must be neither
locked nor connected, and the blend factor must be positive. -/
def writesAttr (blend : Rat) (st : AttrState) : Bool :=
  !st.locked && !st.connected && decide (0 < blend)

/-- The number of attributes of one control the attribute loop applies. -/
def ctrlWriteCount (blend : Rat) (attrs : List (String × Rat)) (ctrl : CtrlState) : Nat :=
  attrs.countP (fun ta =>
    match ctrl ta.1 with
    | some st => writesAttr blend st
    | none => false)

/-- The total applied-attribute count of the control loop. -/
def sceneWriteCount (blend : Rat) (ctrls : List (String × List (String × Rat)))
    (scene : Scene) : Nat :=
  (ctrls.map (fun ca =>
    match scene ca.1 with
    | none => 0
    | some ctrl => ctrlWriteCount blend ca.2 ctrl)).sum

/-! ### Event projections for the mutation ledger -/

/-- The connection-creation events of a chronological event list. -/
def connectionEvents (events : List CreatedItem) : List (String × String) :=
  events.filterMap (fun it =>
    match it with
    | .connection s d => some (s, d)
    | _ => none)

/-- The attribute-creation events of a chronological event list. -/
def attributeEvents (events : List CreatedItem) : List (String × String) :=
  events.filterMap (fun it =>
    match it with
    | .attrItem n x => some (n, x)
    | _ => none)

/-! ### Concrete fixtures used by the per-claim witnesses and
counterexamples -/

/-- A one-pose animator used by the round-trip witness. -/
def c1Animator : Animator :=
  { saved_poses :=
      [("Smile",
        { name := "Smile"
          attribute_name := "Smile"
          controls := [("face_CTRL", [("translateX", 1 / 2)])] })] }

/-- A captured control with one value above and one below the default
tolerance. -/
def c2Control : CaptureControl :=
  { nodeName := "face_CTRL"
    attrs := [{ longName := "translateX", value := 1 / 2 },
              { longName := "translateY", value := 1 / 200 }] }

/-- An animator holding one applied pose for the blend witnesses. -/
def c3Animator : Animator :=
  { saved_poses :=
      [("Smile",
        { name := "Smile"
          attribute_name := "Smile"
          controls := [("face_CTRL", [("translateX", 1 / 2)])] })] }

/-- A scene with the control and attribute the stored pose targets. -/
def c3Scene : Scene :=
  fun c =>
    if c = "face_CTRL" then
      some (fun x => if x = "translateX" then some { value := 0 } else none)
    else none

/-- An animator holding one pose for the idempotence witness. -/
def c4Animator : Animator :=
  { saved_poses :=
      [("Smile",
        { name := "Smile"
          attribute_name := "Smile"
          controls := [("face_CTRL", [("translateX", 1 / 2)])] })] }

/-- A scene where metadata discovery fails (no driver node) while the
pattern match would succeed. -/
def c5Scene : DiscoveryScene :=
  { pattern_matches := [{ nodeName := "face_CTRL" }] }

/-- A pose dictionary with an unknown extra key alongside all required
fields. -/
def c6ExtraDict : PoseDict :=
  { name := some "P1"
    attribute_name := some "P1"
    controls := some [("c", [("tx", 1)])]
    description := some ""
    timestamp := some ""
    maya_version := some ""
    extra_keys := ["unknown_field"] }

/-- A well-formed pose dictionary. -/
def c6GoodDict : PoseDict :=
  { name := some "P2"
    attribute_name := some "P2"
    controls := some [("c", [("tx", 1)])]
    description := some ""
    timestamp := some ""
    maya_version := some ""
    extra_keys := [] }

/-- A poses file whose first record has an unknown extra field. -/
def c6File : PosesFile :=
  { poses := some [("P1", c6ExtraDict), ("P2", c6GoodDict)] }

/-- A pose dictionary missing the three optional fields. -/
def c6MissingOptional : PoseDict :=
  { name := some "P3"
    attribute_name := some "P3"
    controls := some [("c", [("tx", 1)])] }

/-- An animator that already holds a pose named `Smile` for the
no-overwrite witness. -/
def c10Animator : Animator :=
  { saved_poses :=
      [("Smile",
        { name := "Smile"
          attribute_name := "Smile"
          controls := [("face_CTRL", [("translateX", 1 / 2)])] })] }

/-- An import file that collides on `Smile` with different content and
adds a fresh pose. -/
def c10File : PosesFile :=
  { poses := some
      [("Smile",
        FacialPoseData.to_dict
          { name := "Smile"
            attribute_name := "Smile"
            controls := [("face_CTRL", [("translateX", 9)])] }),
       ("Frown",
        FacialPoseData.to_dict
          { name := "Frown"
            attribute_name := "Frown"
            controls := [("brow_CTRL", [("translateY", 1)])] })] }

/-! ## Lemmas about the dictionary model -/

theorem dictLookup_insert_self (k : String) (v : α) (l : List (String × α)) :
    dictLookup k (dictInsert k v l) = some v := by
  induction l with
  | nil => simp [dictInsert, dictLookup]
  | cons hd tl ih =>
      by_cases h : hd.1 = k
      · simp [dictInsert, dictLookup, h]
      · simp [dictInsert, dictLookup, h, ih]

theorem dictLookup_insert_ne (k k' : String) (v : α) (l : List (String × α))
    (h : k' ≠ k) : dictLookup k (dictInsert k' v l) = dictLookup k l := by
  induction l with
  | nil => simp [dictInsert, dictLookup, h]
  | cons hd tl ih =>
      by_cases h2 : hd.1 = k'
      · simp [dictInsert, dictLookup, h2, h]
      · simp [dictInsert, dictLookup, h2, ih]

theorem dictLookup_eq_none_of_not_mem (k : String) (l : List (String × α))
    (h : k ∉ l.map Prod.fst) : dictLookup k l = none := by
  induction l with
  | nil => rfl
  | cons hd tl ih =>
      simp only [List.map_cons, List.mem_cons] at h
      push_neg at h
      simp [dictLookup, Ne.symm h.1, ih h.2]

theorem dictInsert_of_not_mem (k : String) (v : α) (l : List (String × α))
    (h : k ∉ l.map Prod.fst) : dictInsert k v l = l ++ [(k, v)] := by
  induction l with
  | nil => rfl
  | cons hd tl ih =>
      simp only [List.map_cons, List.mem_cons] at h
      push_neg at h
      simp [dictInsert, Ne.symm h.1, ih h.2]

theorem dictLookup_some_mem (k : String) (v : α) (l : List (String × α))
    (h : dictLookup k l = some v) : (k, v) ∈ l := by
  induction l with
  | nil => simp [dictLookup] at h
  | cons hd tl ih =>
      by_cases h2 : hd.1 = k
      · simp [dictLookup, h2] at h
        cases hd
        simp_all
      · simp [dictLookup, h2] at h
        exact List.mem_cons_of_mem _ (ih h)

theorem dictContains_false_iff (k : String) (l : List (String × α)) :
    dictContains k l = false ↔ k ∉ l.map Prod.fst := by
  constructor
  · intro h hmem
    induction l with
    | nil => simp at hmem
    | cons hd tl ih =>
        simp only [List.map_cons, List.mem_cons] at hmem
        rcases hmem with h1 | h1
        · simp [dictContains, dictLookup, h1] at h
        · apply ih _ h1
          by_cases h2 : hd.1 = k
          · simp [dictContains, dictLookup, h2] at h
          · simpa [dictContains, dictLookup, h2] using h
  · intro h
    simp [dictContains, dictLookup_eq_none_of_not_mem k l h]

theorem dictLookup_of_mem_nodup (k : String) (v : α) (l : List (String × α))
    (hnd : (l.map Prod.fst).Nodup) (hmem : (k, v) ∈ l) :
    dictLookup k l = some v := by
  induction l with
  | nil => simp at hmem
  | cons hd tl ih =>
      simp only [List.map_cons, List.nodup_cons] at hnd
      rcases List.mem_cons.mp hmem with h1 | h1
      · subst h1
        simp [dictLookup]
      · have hk : hd.1 ≠ k := by
          intro he
          exact hnd.1 (he ▸ (List.mem_map.mpr ⟨(k, v), h1, rfl⟩))
        simp [dictLookup, hk, ih hnd.2 h1]

/-! ## Claim C8: rollback discipline of the undo bracket -/

theorem trackItem_connections (l : Ledger) (it : CreatedItem) :
    (trackItem l it).created_connections
      = l.created_connections ++ connectionEvents [it] := by
  cases it with
  | node n =>
      by_cases h : n ∈ l.created_nodes
      · simp [trackItem, h, connectionEvents]
      · simp [trackItem, h, connectionEvents]
  | connection s d => simp [trackItem, connectionEvents]
  | attrItem n x => simp [trackItem, connectionEvents]

theorem trackItem_attributes (l : Ledger) (it : CreatedItem) :
    (trackItem l it).created_attributes
      = l.created_attributes ++ attributeEvents [it] := by
  cases it with
  | node n =>
      by_cases h : n ∈ l.created_nodes
      · simp [trackItem, h, attributeEvents]
      · simp [trackItem, h, attributeEvents]
  | connection s d => simp [trackItem, attributeEvents]
  | attrItem n x => simp [trackItem, attributeEvents]

theorem recordItems_connections (events : List CreatedItem) (l : Ledger) :
    (recordItems events l).created_connections
      = l.created_connections ++ connectionEvents events := by
  induction events generalizing l with
  | nil => simp [recordItems, connectionEvents]
  | cons e rest ih =>
      have h1 : recordItems (e :: rest) l = recordItems rest (trackItem l e) := rfl
      rw [h1, ih (trackItem l e), trackItem_connections]
      cases e <;> simp [connectionEvents]

theorem recordItems_attributes (events : List CreatedItem) (l : Ledger) :
    (recordItems events l).created_attributes
      = l.created_attributes ++ attributeEvents events := by
  induction events generalizing l with
  | nil => simp [recordItems, attributeEvents]
  | cons e rest ih =>
      have h1 : recordItems (e :: rest) l = recordItems rest (trackItem l e) := rfl
      rw [h1, ih (trackItem l e), trackItem_attributes]
      cases e <;> simp [attributeEvents]

/-- C8 counterexample: a connection created before an attribute is undone
before it, so the rollback is NOT in reverse order of creation across
kinds — the claim as stated is false on this ledger. -/
theorem undo_chunk_reverse_order_cex :
    (undo_chunk_context Ledger.empty true
        ((Except.error FErr.poseDataError : Except FErr Unit),
         [CreatedItem.connection "src" "dst", CreatedItem.attrItem "node" "attr"])).undoActions
      ≠ specCleanupActions
          [CreatedItem.connection "src" "dst", CreatedItem.attrItem "node" "attr"] := by
  decide

/-- C8 (amended): when the body of `undo_chunk_context` raises, the
original exception is re-raised, the ledger is cleared at the start (the
outcome ignores the incoming ledger) and at the end (also on success), and
the tracked items are undone grouped by kind — connections, then
attributes, then nodes — each group in reverse creation order. -/
theorem undo_chunk_rollback_discipline (l0 : Ledger) (events : List CreatedItem) (e : FErr) :
    ((undo_chunk_context l0 true ((Except.error e : Except FErr Unit), events)).result
        = Except.error e)
  ∧ ((undo_chunk_context l0 true ((Except.error e : Except FErr Unit), events))
        = undo_chunk_context Ledger.empty true ((Except.error e : Except FErr Unit), events))
  ∧ ((undo_chunk_context l0 true ((Except.error e : Except FErr Unit), events)).finalLedger
        = Ledger.empty)
  ∧ (∀ v : Unit,
      (undo_chunk_context l0 true ((Except.ok v : Except FErr Unit), events)).finalLedger
        = Ledger.empty)
  ∧ ((undo_chunk_context l0 true ((Except.error e : Except FErr Unit), events)).undoActions
      = (connectionEvents events).reverse.map (fun sd => UndoAction.disconnectAttr sd.1 sd.2)
        ++ (attributeEvents events).reverse.map (fun na => UndoAction.deleteAttr na.1 na.2)
        ++ (recordItems events Ledger.empty).created_nodes.reverse.map UndoAction.deleteNode) := by
  refine ⟨rfl, rfl, rfl, fun v => rfl, ?_⟩
  show cleanupActions (recordItems events Ledger.empty) = _
  rw [cleanupActions, recordItems_connections events Ledger.empty,
    recordItems_attributes events Ledger.empty]
  simp [Ledger.empty]

/-! ## Claim C5: metadata discovery does not fall back to pattern match -/

/-- C5 counterexample: with no driver node in the scene but a control
matching the pattern, METADATA-mode discovery propagates
`DriverNodeError` even though the pattern strategy would succeed. -/
theorem metadata_no_fallback_cex :
    get_facial_controls {} ControlSelectionMode.patternMode none c5Scene
        (some ControlSelectionMode.metadataMode) none false
      = Except.error FErr.driverNodeError
  ∧ get_facial_controls {} ControlSelectionMode.patternMode none c5Scene
        (some ControlSelectionMode.patternMode) none false
      = Except.ok [{ nodeName := "face_CTRL", isTransform := true }] :=
  ⟨rfl, rfl⟩

theorem pattern_error_shape (scene : DiscoveryScene) :
    get_controls_from_pattern scene = Except.error FErr.controlSelectionError
  ∨ ∃ cs, get_controls_from_pattern scene = Except.ok cs := by
  unfold get_controls_from_pattern
  by_cases hp : scene.pattern_matches.isEmpty
  · exact Or.inl (by simp [hp])
  · exact Or.inr ⟨scene.pattern_matches, by simp [hp]⟩

/-- C5 (amended): when METADATA-mode discovery fails, `get_facial_controls`
propagates the error unchanged instead of falling back; the pattern-match
fallback applies to the SELECTION and OBJECT_SET strategies, for each of
which a failed primary attempt makes the call behave exactly like PATTERN
mode. -/
theorem metadata_failure_propagates (a : Animator) (dm : ControlSelectionMode)
    (dos : Option String) (scene : DiscoveryScene) (osn : Option String)
    (u : Bool) (e : FErr)
    (h : get_controls_from_metadata a scene osn = Except.error e) :
    (get_facial_controls a dm dos scene (some ControlSelectionMode.metadataMode) osn u
      = Except.error e)
  ∧ (∀ e', get_controls_from_selection scene = Except.error e' →
      get_facial_controls a dm dos scene (some ControlSelectionMode.selectionMode) osn u
        = get_facial_controls a dm dos scene (some ControlSelectionMode.patternMode) osn u)
  ∧ (∀ e2, get_controls_from_object_set a dos scene osn = Except.error e2 →
      get_facial_controls a dm dos scene (some ControlSelectionMode.objectSetMode) osn u
        = get_facial_controls a dm dos scene (some ControlSelectionMode.patternMode) osn u) := by
  refine ⟨?_, ?_, ?_⟩
  · simp [get_facial_controls, h]
  · intro e' h'
    rcases pattern_error_shape scene with hp | ⟨cs, hp⟩
    · simp [get_facial_controls, h', hp]
    · simp [get_facial_controls, h', hp]
  · intro e2 h2
    rcases pattern_error_shape scene with hp | ⟨cs, hp⟩
    · simp [get_facial_controls, h2, hp]
    · simp [get_facial_controls, h2, hp]

/-! ## Claim C6: forward-compatible loading -/

/-- C6 counterexample: a pose record carrying an unknown extra field is
not loaded at all — the whole pose is skipped (the claim says the field is
skipped but the pose still loads). -/
theorem import_extra_field_pose_skipped_cex :
    dictLookup "P1" (import_poses_from_file {} c6File "f" false).1.saved_poses = none
  ∧ (import_poses_from_file {} c6File "f" false).2 = Except.ok ["P2"]
  ∧ FacialPoseData.from_dict c6ExtraDict = none :=
  ⟨rfl, rfl, rfl⟩

/-- C6 (amended): a pose record missing its optional fields loads with the
dataclass defaults, and the import succeeds; a record with unknown extra
fields raises `TypeError` inside `from_dict` and is skipped entirely with
a warning (it is not loaded), without aborting the rest of the import. -/
theorem import_forward_compat (pn fp : String) (pd : PoseDict)
    (n an : String) (cs : List (String × List (String × Rat)))
    (hname : pd.name = some n) (hattr : pd.attribute_name = some an)
    (hctrls : pd.controls = some cs) (hex : pd.extra_keys = [])
    (hn : n ≠ "") (ha : an ≠ "") (hc : cs ≠ []) :
    (import_poses_from_file {} { poses := some [(pn, pd)] } fp false)
      = ({ saved_poses :=
             [(pn, { name := n
                     attribute_name := an
                     controls := cs
                     description := pd.description.getD ""
                     timestamp := pd.timestamp.getD ""
                     maya_version := pd.maya_version.getD "" })]
           pose_storage_file := some fp },
         Except.ok [pn])
  ∧ ∀ pd' : PoseDict, pd'.extra_keys ≠ [] → FacialPoseData.from_dict pd' = none := by
  constructor
  · rcases List.exists_cons_of_ne_nil hc with ⟨c0, cs', hcs⟩
    subst hcs
    simp [import_poses_from_file, importStep, FacialPoseData.from_dict, hname, hattr,
      hctrls, hex, FacialPoseData.is_valid, hn, ha, dictContains, dictLookup, dictInsert]
  · intro pd' h'
    cases h'' : pd'.extra_keys with
    | nil => exact absurd h'' h'
    | cons x xs => simp [FacialPoseData.from_dict, h'']

/-- C6 witness: the amended theorem applied to a record with all optional
fields missing, and to the record with the unknown extra field. -/
theorem import_forward_compat_witness :
    ((import_poses_from_file {} { poses := some [("P3", c6MissingOptional)] } "f" false)
      = ({ saved_poses :=
             [("P3", { name := "P3"
                       attribute_name := "P3"
                       controls := [("c", [("tx", 1)])]
                       description := c6MissingOptional.description.getD ""
                       timestamp := c6MissingOptional.timestamp.getD ""
                       maya_version := c6MissingOptional.maya_version.getD "" })]
           pose_storage_file := some "f" },
         Except.ok ["P3"]))
  ∧ FacialPoseData.from_dict c6ExtraDict = none :=
  ⟨(import_forward_compat "P3" "f" c6MissingOptional "P3" "P3" [("c", [("tx", 1)])]
      rfl rfl rfl rfl (by decide) (by decide) (by decide)).1,
   (import_forward_compat "P3" "f" c6MissingOptional "P3" "P3" [("c", [("tx", 1)])]
      rfl rfl rfl rfl (by decide) (by decide) (by decide)).2 c6ExtraDict (by decide)⟩

/-! ## Claim C10: import without overwrite preserves existing poses -/

theorem importStep_preserves (k : String) (st : Animator × List String × List String)
    (e : String × PoseDict) (h : dictContains k st.1.saved_poses = true) :
    dictContains k (importStep false st e).1.saved_poses = true
  ∧ dictLookup k (importStep false st e).1.saved_poses = dictLookup k st.1.saved_poses
  ∧ ∀ x ∈ (importStep false st e).2.1, x ∈ st.2.1 ∨ x ≠ k := by
  by_cases hk : e.1 = k
  · subst hk
    unfold importStep
    rw [if_pos (show (dictContains e.1 st.1.saved_poses && !false) = true by simp [h])]
    exact ⟨h, rfl, fun x hx => Or.inl hx⟩
  · unfold importStep
    cases hc : dictContains e.1 st.1.saved_poses with
    | true =>
        rw [if_pos (show (dictContains e.1 st.1.saved_poses && !false) = true by simp [hc])]
        exact ⟨h, rfl, fun x hx => Or.inl hx⟩
    | false =>
        rw [if_neg (show ¬((dictContains e.1 st.1.saved_poses && !false) = true) by
          simp [hc])]
        cases hfd : FacialPoseData.from_dict e.2 with
        | none => exact ⟨h, rfl, fun x hx => Or.inl hx⟩
        | some p =>
            dsimp only
            cases hv : p.is_valid with
            | false =>
                exact ⟨h, rfl, fun x hx => Or.inl hx⟩
            | true =>
                refine ⟨?_, dictLookup_insert_ne k e.1 p _ hk, ?_⟩
                · simpa [dictContains, dictLookup_insert_ne k e.1 p _ hk] using h
                · intro x hx
                  rcases List.mem_append.mp hx with h1 | h1
                  · exact Or.inl h1
                  · right
                    simp only [List.mem_singleton] at h1
                    exact h1 ▸ hk

theorem import_foldl_preserves (k : String) (entries : List (String × PoseDict)) :
    ∀ st : Animator × List String × List String,
      dictContains k st.1.saved_poses = true →
      dictContains k (entries.foldl (importStep false) st).1.saved_poses = true
      ∧ dictLookup k (entries.foldl (importStep false) st).1.saved_poses
          = dictLookup k st.1.saved_poses
      ∧ ∀ x ∈ (entries.foldl (importStep false) st).2.1, x ∈ st.2.1 ∨ x ≠ k := by
  induction entries with
  | nil => exact fun st h => ⟨h, rfl, fun x hx => Or.inl hx⟩
  | cons e rest ih =>
      intro st h
      have hstep := importStep_preserves k st e h
      have hrest := ih (importStep false st e) hstep.1
      rw [List.foldl_cons]
      refine ⟨hrest.1, hrest.2.1.trans hstep.2.1, fun x hx => ?_⟩
      rcases hrest.2.2 x hx with h1 | h1
      · exact hstep.2.2 x h1
      · exact Or.inr h1

/-- C10 (confirmed): with `overwrite_existing=False`, a pose name already
in `saved_poses` keeps exactly its prior record after
`import_poses_from_file`, and never appears among the imported names. -/
theorem import_no_overwrite_preserves (a : Animator) (file : PosesFile) (fp k : String)
    (hk : dictContains k a.saved_poses = true) :
    dictLookup k (import_poses_from_file a file fp false).1.saved_poses
      = dictLookup k a.saved_poses
  ∧ ∀ names, (import_poses_from_file a file fp false).2 = Except.ok names → k ∉ names := by
  cases hp : file.poses with
  | none => simp [import_poses_from_file, hp]
  | some entries =>
      have h := import_foldl_preserves k entries (a, [], []) hk
      unfold import_poses_from_file
      rw [hp]
      by_cases he : (entries.foldl (importStep false) (a, [], [])).2.1.isEmpty
      · simp only [he, if_true]
        exact ⟨h.2.1, by intro names hn; cases hn⟩
      · simp only [he, Bool.false_eq_true, if_false]
        refine ⟨h.2.1, ?_⟩
        intro names hn
        have : names = (entries.foldl (importStep false) (a, [], [])).2.1 := by
          cases hn; rfl
        subst this
        intro hkmem
        rcases h.2.2 k hkmem with h1 | h1
        · simp at h1
        · exact h1 rfl

/-- C10 witness: the theorem at a concrete animator whose pose `Smile`
collides with the import file. -/
theorem import_no_overwrite_preserves_witness :
    dictLookup "Smile" (import_poses_from_file c10Animator c10File "f" false).1.saved_poses
      = dictLookup "Smile" c10Animator.saved_poses :=
  (import_no_overwrite_preserves c10Animator c10File "f" "Smile" (by decide)).1

/-! ## Claim C9: non-positive blend raises instead of returning -/

theorem applyAttrOnce_nonpos (b t : Rat) (st : AttrState) (hb : b ≤ 0) :
    applyAttrOnce b t st = none := by
  unfold applyAttrOnce
  by_cases hl : st.locked || st.connected
  · simp [hl]
  · have h1 : ¬(1 ≤ b) := by intro h; linarith
    simp [hl, h1, hb]

theorem applyCtrlStep_nonpos (b : Rat) (hb : b ≤ 0)
    (acc : CtrlState × Nat) (ta : String × Rat) :
    applyCtrlStep b acc ta = acc := by
  unfold applyCtrlStep
  cases h : acc.1 ta.1 with
  | none => rfl
  | some st => simp [applyAttrOnce_nonpos b ta.2 st hb]

theorem applyAttrsToCtrl_nonpos (b : Rat) (hb : b ≤ 0)
    (attrs : List (String × Rat)) (ctrl : CtrlState) (n : Nat) :
    applyAttrsToCtrl b attrs ctrl n = (ctrl, n) := by
  unfold applyAttrsToCtrl
  induction attrs with
  | nil => rfl
  | cons hd tl ih => rw [List.foldl_cons, applyCtrlStep_nonpos b hb]; exact ih

theorem applySceneStep_nonpos (b : Rat) (hb : b ≤ 0)
    (acc : Scene × Nat) (ca : String × List (String × Rat)) :
    applySceneStep b acc ca = acc := by
  unfold applySceneStep
  cases h : acc.1 ca.1 with
  | none => rfl
  | some ctrl =>
      dsimp only
      simp only [applyAttrsToCtrl_nonpos b hb]
      have hfun : (fun nm => if nm = ca.1 then some ctrl else acc.1 nm) = acc.1 := by
        funext nm
        by_cases hnm : nm = ca.1
        · rw [if_pos hnm, hnm, h]
        · rw [if_neg hnm]
      rw [hfun]

theorem applyPoseControls_nonpos (b : Rat) (hb : b ≤ 0)
    (ctrls : List (String × List (String × Rat))) (scene : Scene) :
    applyPoseControls b ctrls scene = (scene, 0) := by
  unfold applyPoseControls
  induction ctrls with
  | nil => rfl
  | cons hd tl ih => rw [List.foldl_cons, applySceneStep_nonpos b hb]; exact ih

/-- C9 (confirmed): a stored pose applied with `blend_factor ≤ 0.0` writes
no scene attribute and raises `PoseDataError`; and whenever
`apply_saved_pose` returns normally, the returned value is `True`. -/
theorem apply_nonpositive_blend (a : Animator) (s : Scene) (pn : String)
    (pose : FacialPoseData) (hp : dictLookup pn a.saved_poses = some pose)
    (b : Rat) (hb : b ≤ 0) :
    apply_saved_pose a s pn b = (s, Except.error FErr.poseDataError)
  ∧ ∀ (a' : Animator) (s' : Scene) (pn' : String) (b' : Rat) (v : Bool),
      (apply_saved_pose a' s' pn' b').2 = Except.ok v → v = true := by
  constructor
  · unfold apply_saved_pose
    rw [hp]
    simp [applyPoseControls_nonpos b hb]
  · intro a' s' pn' b' v hv
    unfold apply_saved_pose at hv
    cases h : dictLookup pn' a'.saved_poses with
    | none => rw [h] at hv; cases hv
    | some pose' =>
        rw [h] at hv
        by_cases hz : (applyPoseControls b' pose'.controls s').2 = 0
        · simp [hz] at hv
        · simp [hz] at hv
          exact hv

/-- C9 witness: the theorem at the concrete animator and scene with blend
factor zero. -/
theorem apply_nonpositive_blend_witness :
    apply_saved_pose c3Animator c3Scene "Smile" 0
      = (c3Scene, Except.error FErr.poseDataError) :=
  (apply_nonpositive_blend c3Animator c3Scene "Smile"
    { name := "Smile"
      attribute_name := "Smile"
      controls := [("face_CTRL", [("translateX", 1 / 2)])] }
    rfl 0 (by norm_num)).1

/-- C5 witness: the amended theorem at the concrete scene where the
driver node is missing. -/
theorem metadata_failure_propagates_witness :
    get_facial_controls {} ControlSelectionMode.patternMode none c5Scene
        (some ControlSelectionMode.metadataMode) none false
      = Except.error FErr.driverNodeError :=
  (metadata_failure_propagates {} ControlSelectionMode.patternMode none c5Scene
    none false FErr.driverNodeError rfl).1

/-! ## Claim C2: tolerance boundary during capture -/

theorem captureControlAttrs_foldl (a : Animator) (l : List CaptureAttr) :
    ∀ init, l.foldl (captureStep a) init
      = init ++ (l.filter (capturesValue a)).map (fun x => (x.longName, x.value)) := by
  induction l with
  | nil => intro init; simp
  | cons x rest ih =>
      intro init
      rw [List.foldl_cons]
      cases hv : is_valid_attribute a x with
      | false =>
          have hs : captureStep a init x = init := by
            unfold captureStep
            rw [if_neg (by rw [hv]; simp)]
          have hf : capturesValue a x = false := by
            unfold capturesValue
            rw [hv]
            rfl
          rw [hs, ih init, List.filter_cons, hf]
          simp
      | true =>
          by_cases ht : a.tolerance ≤ |x.value|
          · have hs : captureStep a init x = init ++ [(x.longName, x.value)] := by
              unfold captureStep
              rw [if_pos (by rw [hv]), if_pos ht]
            have hf : capturesValue a x = true := by
              unfold capturesValue
              rw [hv]
              simpa using ht
            rw [hs, ih (init ++ [(x.longName, x.value)]), List.filter_cons, hf]
            simp
          · have hs : captureStep a init x = init := by
              unfold captureStep
              rw [if_pos (by rw [hv]), if_neg ht]
            have hf : capturesValue a x = false := by
              unfold capturesValue
              rw [hv]
              simpa using ht
            rw [hs, ih init, List.filter_cons, hf]
            simp

theorem captureControlAttrs_eq (a : Animator) (c : CaptureControl) :
    captureControlAttrs a c
      = (c.attrs.filter (capturesValue a)).map (fun x => (x.longName, x.value)) := by
  unfold captureControlAttrs
  simpa using captureControlAttrs_foldl a c.attrs []

/-- C2 (confirmed): an attribute read during capture is excluded from the
record when its absolute value is strictly below the tolerance and stored
with its value when at or above it; on success the produced pose record
holds exactly the captured data. -/
theorem capture_tolerance_boundary (a : Animator) (c : CaptureControl) (x : CaptureAttr)
    (hx : x ∈ c.attrs) (hvalid : is_valid_attribute a x = true)
    (hnd : (c.attrs.map CaptureAttr.longName).Nodup) :
    (|x.value| < a.tolerance → dictLookup x.longName (captureControlAttrs a c) = none)
  ∧ (a.tolerance ≤ |x.value| →
      dictLookup x.longName (captureControlAttrs a c) = some x.value)
  ∧ ∀ sel pose_name d ts mv pose,
      (save_pose_from_selection a sel pose_name d ts mv).2 = Except.ok pose →
      pose.controls
        = saveControlsData a (sel.filter (fun cc => is_valid_control_name a cc.nodeName)) := by
  refine ⟨?_, ?_, ?_⟩
  · intro hlt
    rw [captureControlAttrs_eq]
    apply dictLookup_eq_none_of_not_mem
    intro hmem
    rw [List.map_map] at hmem
    rcases List.mem_map.mp hmem with ⟨y, hy, hyn⟩
    have hyattrs : y ∈ c.attrs := List.mem_of_mem_filter hy
    have hxy : y = x :=
      List.inj_on_of_nodup_map hnd hyattrs hx hyn
    subst hxy
    have : capturesValue a y = true := List.of_mem_filter hy
    unfold capturesValue at this
    rw [hvalid] at this
    simp at this
    exact absurd hlt (not_lt.mpr this)
  · intro hge
    rw [captureControlAttrs_eq]
    have hmem : x ∈ c.attrs.filter (capturesValue a) := by
      apply List.mem_filter.mpr
      refine ⟨hx, ?_⟩
      unfold capturesValue
      rw [hvalid]
      simpa using hge
    have hnd2 : (((c.attrs.filter (capturesValue a)).map
        (fun x => (x.longName, x.value))).map Prod.fst).Nodup := by
      have hcomp : (((c.attrs.filter (capturesValue a)).map
            (fun x => (x.longName, x.value))).map Prod.fst)
          = (c.attrs.filter (capturesValue a)).map CaptureAttr.longName := by
        rw [List.map_map]
        rfl
      rw [hcomp]
      exact hnd.sublist (List.Sublist.map CaptureAttr.longName
        (List.filter_sublist c.attrs))
    exact dictLookup_of_mem_nodup x.longName x.value _ hnd2
      (List.mem_map.mpr ⟨x, hmem, rfl⟩)
  · intro sel pose_name d ts mv pose hok
    simp only [save_pose_from_selection] at hok
    split at hok
    · exact absurd hok (by simp)
    · split at hok
      · exact absurd hok (by simp)
      · split at hok
        · exact absurd hok (by simp)
        · cases hok
          rfl

/-- C2 witness: on the concrete control, `translateX = 1/2` is stored and
`translateY = 1/200` (below the default `0.01`) is excluded. -/
theorem capture_tolerance_boundary_witness :
    dictLookup "translateX" (captureControlAttrs {} c2Control) = some (1 / 2)
  ∧ dictLookup "translateY" (captureControlAttrs {} c2Control) = none :=
  ⟨(capture_tolerance_boundary {} c2Control
      { longName := "translateX", value := 1 / 2 } (by simp [c2Control]) (by decide)
      (by decide)).2.1
      (by show (1 : Rat) / 100 ≤ |(1 : Rat) / 2|
          rw [show |(1 : Rat) / 2| = 1 / 2 from abs_of_pos (by norm_num)]
          norm_num),
   (capture_tolerance_boundary {} c2Control
      { longName := "translateY", value := 1 / 200 } (by simp [c2Control]) (by decide)
      (by decide)).1
      (by show |(1 : Rat) / 200| < (1 : Rat) / 100
          rw [show |(1 : Rat) / 200| = 1 / 200 from abs_of_pos (by norm_num)]
          norm_num)⟩

/-! ## Claim C1: export/import round trip -/

theorem from_dict_to_dict (p : FacialPoseData) :
    FacialPoseData.from_dict p.to_dict = some p := rfl

theorem import_roundtrip_fold (entries : List (String × FacialPoseData)) :
    ∀ st : Animator × List String × List String,
      (∀ e ∈ entries, e.2.is_valid = true) →
      (entries.map Prod.fst).Nodup →
      (∀ e ∈ entries, dictContains e.1 st.1.saved_poses = false) →
      ((entries.map (fun np => (np.1, np.2.to_dict))).foldl (importStep false) st).1.saved_poses
        = st.1.saved_poses ++ entries
      ∧ ((entries.map (fun np => (np.1, np.2.to_dict))).foldl (importStep false) st).2.1
        = st.2.1 ++ entries.map Prod.fst := by
  induction entries with
  | nil => intro st _ _ _; simp
  | cons e rest ih =>
      intro st hv hnd hdisj
      have hhead : dictContains e.1 st.1.saved_poses = false :=
        hdisj e (List.mem_cons_self e rest)
      have hvhead : e.2.is_valid = true := hv e (List.mem_cons_self e rest)
      have hstep : importStep false st (e.1, e.2.to_dict)
          = ({ st.1 with saved_poses := dictInsert e.1 e.2 st.1.saved_poses },
             st.2.1 ++ [e.1], st.2.2) := by
        unfold importStep
        rw [if_neg (show ¬((dictContains e.1 st.1.saved_poses && !false) = true) by
          simp [hhead])]
        rw [from_dict_to_dict]
        dsimp only
        rw [if_neg (show ¬((!e.2.is_valid) = true) by simp [hvhead])]
      simp only [List.map_cons, List.nodup_cons] at hnd
      have hne1 : e.1 ∉ st.1.saved_poses.map Prod.fst :=
        (dictContains_false_iff e.1 st.1.saved_poses).mp hhead
      have hdisj2 : ∀ e2 ∈ rest,
          dictContains e2.1 (dictInsert e.1 e.2 st.1.saved_poses) = false := by
        intro e2 he2
        have hne2 : e.1 ≠ e2.1 := by
          intro heq
          exact hnd.1 (heq ▸ List.mem_map.mpr ⟨e2, he2, rfl⟩)
        have : dictLookup e2.1 (dictInsert e.1 e.2 st.1.saved_poses)
            = dictLookup e2.1 st.1.saved_poses :=
          dictLookup_insert_ne e2.1 e.1 e.2 st.1.saved_poses hne2
        have hc2 := hdisj e2 (List.mem_cons_of_mem e he2)
        unfold dictContains at hc2 ⊢
        rw [this]
        exact hc2
      have hrest := ih
        ({ st.1 with saved_poses := dictInsert e.1 e.2 st.1.saved_poses },
         st.2.1 ++ [e.1], st.2.2)
        (fun e2 he2 => hv e2 (List.mem_cons_of_mem e he2)) hnd.2 hdisj2
      rw [List.map_cons, List.foldl_cons, hstep]
      refine ⟨?_, ?_⟩
      · rw [hrest.1]
        dsimp only
        rw [dictInsert_of_not_mem e.1 e.2 st.1.saved_poses hne1]
        rw [List.append_assoc]
        rfl
      · rw [hrest.2]
        dsimp only
        rw [List.append_assoc]
        rfl

/-- C1 (confirmed): exporting a collection of valid poses with
`pose_names=None` and importing the produced file into an animator with
empty `saved_poses` reproduces the original name-to-record mapping. -/
theorem export_import_round_trip (a : Animator) (fp fp2 ts mv : String)
    (hvalid : ∀ e ∈ a.saved_poses, e.2.is_valid = true)
    (hnd : (a.saved_poses.map Prod.fst).Nodup)
    (hne : a.saved_poses ≠ []) :
    ∃ file a2, export_poses_to_file a fp ts mv none = Except.ok (file, a2)
      ∧ (import_poses_from_file {} file fp2 false).1.saved_poses = a.saved_poses
      ∧ (import_poses_from_file {} file fp2 false).2
          = Except.ok (a.saved_poses.map Prod.fst) := by
  have hie : a.saved_poses.isEmpty = false := by
    cases hsp : a.saved_poses with
    | nil => exact absurd hsp hne
    | cons h t => rfl
  refine ⟨{ version := "1.0"
            created_timestamp := ts
            maya_version := mv
            facial_driver_node := a.facial_driver_node
            control_pattern := a.control_pattern
            poses := some (a.saved_poses.map (fun np => (np.1, np.2.to_dict))) },
          { a with pose_storage_file := some fp }, ?_, ?_, ?_⟩
  · unfold export_poses_to_file
    dsimp only
    split
    · rename_i hcond
      rw [hie] at hcond
      simp at hcond
    · rfl
  · have hrest := import_roundtrip_fold a.saved_poses ({}, [], []) hvalid hnd
      (fun e he => rfl)
    have hientry : (List.foldl (importStep false)
        (({} : Animator), ([] : List String), ([] : List String))
        (a.saved_poses.map (fun np => (np.1, np.2.to_dict)))).2.1
        = a.saved_poses.map Prod.fst := by
      rw [hrest.2]
      rfl
    unfold import_poses_from_file
    dsimp only
    split
    · rename_i hcond
      rw [hientry] at hcond
      cases hsp : a.saved_poses with
      | nil => exact absurd hsp hne
      | cons hh tt => rw [hsp] at hcond; simp at hcond
    · rw [hrest.1]
      rfl
  · have hrest := import_roundtrip_fold a.saved_poses ({}, [], []) hvalid hnd
      (fun e he => rfl)
    have hientry : (List.foldl (importStep false)
        (({} : Animator), ([] : List String), ([] : List String))
        (a.saved_poses.map (fun np => (np.1, np.2.to_dict)))).2.1
        = a.saved_poses.map Prod.fst := by
      rw [hrest.2]
      rfl
    unfold import_poses_from_file
    dsimp only
    split
    · rename_i hcond
      rw [hientry] at hcond
      cases hsp : a.saved_poses with
      | nil => exact absurd hsp hne
      | cons hh tt => rw [hsp] at hcond; simp at hcond
    · rw [hientry]

/-- C1 witness: the round trip on the concrete one-pose collection. -/
theorem export_import_round_trip_witness :
    ∃ file a2, export_poses_to_file c1Animator "poses.json" "ts" "2024" none
        = Except.ok (file, a2)
      ∧ (import_poses_from_file {} file "poses2.json" false).1.saved_poses
          = c1Animator.saved_poses
      ∧ (import_poses_from_file {} file "poses2.json" false).2
          = Except.ok (c1Animator.saved_poses.map Prod.fst) :=
  export_import_round_trip c1Animator "poses.json" "poses2.json" "ts" "2024"
    (by decide) (by decide) (by decide)

/-! ## Claims C3 and C4: blend boundaries and idempotence of pose apply -/

theorem dictLookup_cons (k : String) (e : String × α) (l : List (String × α)) :
    dictLookup k (e :: l) = if e.1 = k then some e.2 else dictLookup k l := rfl

theorem applyCtrlStep_def (b : Rat) (ctrl : CtrlState) (n : Nat) (ta : String × Rat) :
    applyCtrlStep b (ctrl, n) ta
      = match ctrl ta.1 with
        | none => (ctrl, n)
        | some st =>
            match applyAttrOnce b ta.2 st with
            | none => (ctrl, n)
            | some st' => (fun nm => if nm = ta.1 then some st' else ctrl nm, n + 1) := rfl

theorem applySceneStep_def (b : Rat) (s : Scene) (n : Nat)
    (ca : String × List (String × Rat)) :
    applySceneStep b (s, n) ca
      = match s ca.1 with
        | none => (s, n)
        | some ctrl =>
            (fun nm => if nm = ca.1 then some (applyAttrsToCtrl b ca.2 ctrl n).1 else s nm,
             (applyAttrsToCtrl b ca.2 ctrl n).2) := rfl

theorem applyAttrOnce_isSome (b t : Rat) (st : AttrState) :
    (applyAttrOnce b t st).isSome = writesAttr b st := by
  unfold applyAttrOnce writesAttr
  by_cases hl : st.locked
  · simp [hl]
  · by_cases hc : st.connected
    · simp [hl, hc]
    · by_cases h1 : (1 : Rat) ≤ b
      · have h0 : (0 : Rat) < b := lt_of_lt_of_le one_pos h1
        simp [hl, hc, h1, h0]
      · by_cases h2 : b ≤ 0
        · have h0 : ¬(0 : Rat) < b := not_lt.mpr h2
          simp [hl, hc, h1, h2, h0]
        · have h0 : (0 : Rat) < b := lt_of_not_ge h2
          simp [hl, hc, h1, h2, h0]

theorem appliedAttr_flags (b t : Rat) (st : AttrState) :
    (appliedAttr b t st).locked = st.locked
  ∧ (appliedAttr b t st).connected = st.connected := by
  unfold appliedAttr applyAttrOnce
  by_cases hl : st.locked || st.connected
  · simp [hl]
  · by_cases h1 : (1 : Rat) ≤ b
    · simp [hl, h1]
    · by_cases h2 : b ≤ 0
      · simp [hl, h1, h2]
      · simp [hl, h1, h2]

theorem writesAttr_congr (b : Rat) (st st' : AttrState)
    (hl : st'.locked = st.locked) (hc : st'.connected = st.connected) :
    writesAttr b st' = writesAttr b st := by
  unfold writesAttr
  rw [hl, hc]

theorem ctrlAfter_cons_none (b : Rat) (ta : String × Rat) (rest : List (String × Rat))
    (ctrl : CtrlState) (hct : ctrl ta.1 = none) (hta : ta.1 ∉ rest.map Prod.fst) :
    ctrlAfter b (ta :: rest) ctrl = ctrlAfter b rest ctrl := by
  funext nm
  unfold ctrlAfter
  rw [dictLookup_cons]
  by_cases hnm : ta.1 = nm
  · subst hnm
    rw [if_pos rfl, hct, dictLookup_eq_none_of_not_mem ta.1 rest hta]
    rfl
  · rw [if_neg hnm]

theorem ctrlAfter_cons_skip (b : Rat) (ta : String × Rat) (rest : List (String × Rat))
    (ctrl : CtrlState) (st : AttrState) (hct : ctrl ta.1 = some st)
    (happ : applyAttrOnce b ta.2 st = none) (hta : ta.1 ∉ rest.map Prod.fst) :
    ctrlAfter b (ta :: rest) ctrl = ctrlAfter b rest ctrl := by
  funext nm
  unfold ctrlAfter
  rw [dictLookup_cons]
  by_cases hnm : ta.1 = nm
  · subst hnm
    rw [if_pos rfl, hct, dictLookup_eq_none_of_not_mem ta.1 rest hta]
    show some (appliedAttr b ta.2 st) = some st
    unfold appliedAttr
    rw [happ]
    rfl
  · rw [if_neg hnm]

theorem ctrlAfter_cons_write (b : Rat) (ta : String × Rat) (rest : List (String × Rat))
    (ctrl : CtrlState) (st st' : AttrState) (hct : ctrl ta.1 = some st)
    (happ : applyAttrOnce b ta.2 st = some st') (hta : ta.1 ∉ rest.map Prod.fst) :
    ctrlAfter b (ta :: rest) ctrl
      = ctrlAfter b rest (fun nm => if nm = ta.1 then some st' else ctrl nm) := by
  funext nm
  unfold ctrlAfter
  rw [dictLookup_cons]
  by_cases hnm : ta.1 = nm
  · subst hnm
    rw [if_pos rfl, hct, dictLookup_eq_none_of_not_mem ta.1 rest hta]
    show some (appliedAttr b ta.2 st) = (if ta.1 = ta.1 then some st' else ctrl ta.1)
    rw [if_pos rfl]
    unfold appliedAttr
    rw [happ]
    rfl
  · rw [if_neg hnm]
    have hne : ¬(nm = ta.1) := fun he => hnm he.symm
    cases hr : dictLookup nm rest with
    | none =>
        show ctrl nm = if nm = ta.1 then some st' else ctrl nm
        rw [if_neg hne]
    | some t =>
        show Option.map (appliedAttr b t) (ctrl nm)
            = Option.map (appliedAttr b t) (if nm = ta.1 then some st' else ctrl nm)
        rw [if_neg hne]

theorem ctrlWriteCount_cons (b : Rat) (ta : String × Rat) (rest : List (String × Rat))
    (ctrl : CtrlState) :
    ctrlWriteCount b (ta :: rest) ctrl
      = ctrlWriteCount b rest ctrl
        + (if (match ctrl ta.1 with
              | some st => writesAttr b st
              | none => false) = true then 1 else 0) := by
  unfold ctrlWriteCount
  rw [List.countP_cons]

theorem ctrlWriteCount_update (b : Rat) (rest : List (String × Rat))
    (ctrl : CtrlState) (k : String) (st' : AttrState) (hk : k ∉ rest.map Prod.fst) :
    ctrlWriteCount b rest (fun nm => if nm = k then some st' else ctrl nm)
      = ctrlWriteCount b rest ctrl := by
  unfold ctrlWriteCount
  apply List.countP_congr
  intro ta hta
  have hne : ta.1 ≠ k := by
    intro he
    exact hk (he ▸ List.mem_map.mpr ⟨ta, hta, rfl⟩)
  rw [show ((fun nm => if nm = k then some st' else ctrl nm) ta.1)
      = (if ta.1 = k then some st' else ctrl ta.1) from rfl]
  rw [if_neg hne]

theorem applyAttrsToCtrl_eq (b : Rat) (attrs : List (String × Rat)) :
    ∀ (ctrl : CtrlState) (n : Nat), (attrs.map Prod.fst).Nodup →
      applyAttrsToCtrl b attrs ctrl n
        = (ctrlAfter b attrs ctrl, n + ctrlWriteCount b attrs ctrl) := by
  induction attrs with
  | nil => intro ctrl n _; rfl
  | cons ta rest ih =>
      intro ctrl n hnd
      simp only [List.map_cons, List.nodup_cons] at hnd
      have hta : ta.1 ∉ rest.map Prod.fst := hnd.1
      have hstep : applyAttrsToCtrl b (ta :: rest) ctrl n
          = rest.foldl (applyCtrlStep b) (applyCtrlStep b (ctrl, n) ta) := rfl
      cases hct : ctrl ta.1 with
      | none =>
          have h1 : applyCtrlStep b (ctrl, n) ta = (ctrl, n) := by
            rw [applyCtrlStep_def, hct]
          rw [hstep, h1]
          show applyAttrsToCtrl b rest ctrl n
            = (ctrlAfter b (ta :: rest) ctrl, n + ctrlWriteCount b (ta :: rest) ctrl)
          rw [ih ctrl n hnd.2]
          rw [ctrlAfter_cons_none b ta rest ctrl hct hta]
          rw [ctrlWriteCount_cons b ta rest ctrl, hct]
          simp
      | some st =>
          cases happ : applyAttrOnce b ta.2 st with
          | none =>
              have h1 : applyCtrlStep b (ctrl, n) ta = (ctrl, n) := by
                rw [applyCtrlStep_def, hct]
                dsimp only
                rw [happ]
              rw [hstep, h1]
              show applyAttrsToCtrl b rest ctrl n
                = (ctrlAfter b (ta :: rest) ctrl, n + ctrlWriteCount b (ta :: rest) ctrl)
              rw [ih ctrl n hnd.2]
              rw [ctrlAfter_cons_skip b ta rest ctrl st hct happ hta]
              rw [ctrlWriteCount_cons b ta rest ctrl, hct]
              have hw : writesAttr b st = false := by
                rw [← applyAttrOnce_isSome b ta.2 st, happ]
                rfl
              dsimp only
              rw [hw]
              simp
          | some st' =>
              have h1 : applyCtrlStep b (ctrl, n) ta
                  = (fun nm => if nm = ta.1 then some st' else ctrl nm, n + 1) := by
                rw [applyCtrlStep_def, hct]
                dsimp only
                rw [happ]
              rw [hstep, h1]
              show applyAttrsToCtrl b rest
                  (fun nm => if nm = ta.1 then some st' else ctrl nm) (n + 1)
                = (ctrlAfter b (ta :: rest) ctrl, n + ctrlWriteCount b (ta :: rest) ctrl)
              rw [ih (fun nm => if nm = ta.1 then some st' else ctrl nm) (n + 1) hnd.2]
              rw [ctrlAfter_cons_write b ta rest ctrl st st' hct happ hta]
              rw [ctrlWriteCount_update b rest ctrl ta.1 st' hta]
              rw [ctrlWriteCount_cons b ta rest ctrl, hct]
              have hw : writesAttr b st = true := by
                rw [← applyAttrOnce_isSome b ta.2 st, happ]
                rfl
              dsimp only
              rw [hw]
              simp
              omega

theorem sceneAfter_cons_none (b : Rat) (ca : String × List (String × Rat))
    (rest : List (String × List (String × Rat))) (s : Scene)
    (hsc : s ca.1 = none) (hca : ca.1 ∉ rest.map Prod.fst) :
    sceneAfter b (ca :: rest) s = sceneAfter b rest s := by
  funext c
  unfold sceneAfter
  rw [dictLookup_cons]
  by_cases hc : ca.1 = c
  · subst hc
    rw [if_pos rfl, hsc, dictLookup_eq_none_of_not_mem ca.1 rest hca]
    rfl
  · rw [if_neg hc]

theorem sceneAfter_cons_some (b : Rat) (ca : String × List (String × Rat))
    (rest : List (String × List (String × Rat))) (s : Scene) (ctrl : CtrlState)
    (hsc : s ca.1 = some ctrl) (hca : ca.1 ∉ rest.map Prod.fst) :
    sceneAfter b (ca :: rest) s
      = sceneAfter b rest
          (fun c => if c = ca.1 then some (ctrlAfter b ca.2 ctrl) else s c) := by
  funext c
  unfold sceneAfter
  rw [dictLookup_cons]
  by_cases hc : ca.1 = c
  · subst hc
    rw [if_pos rfl, hsc, dictLookup_eq_none_of_not_mem ca.1 rest hca]
    show some (ctrlAfter b ca.2 ctrl)
        = if ca.1 = ca.1 then some (ctrlAfter b ca.2 ctrl) else s ca.1
    rw [if_pos rfl]
  · rw [if_neg hc]
    have hne : ¬(c = ca.1) := fun he => hc he.symm
    cases hr : dictLookup c rest with
    | none =>
        show s c = if c = ca.1 then some (ctrlAfter b ca.2 ctrl) else s c
        rw [if_neg hne]
    | some attrs =>
        show Option.map (ctrlAfter b attrs) (s c)
            = Option.map (ctrlAfter b attrs)
                (if c = ca.1 then some (ctrlAfter b ca.2 ctrl) else s c)
        rw [if_neg hne]

theorem sceneWriteCount_cons (b : Rat) (ca : String × List (String × Rat))
    (rest : List (String × List (String × Rat))) (s : Scene) :
    sceneWriteCount b (ca :: rest) s
      = (match s ca.1 with
         | none => 0
         | some ctrl => ctrlWriteCount b ca.2 ctrl)
        + sceneWriteCount b rest s := by
  unfold sceneWriteCount
  rw [List.map_cons, List.sum_cons]

theorem sceneWriteCount_update (b : Rat)
    (rest : List (String × List (String × Rat))) (s : Scene) (k : String)
    (ctrl' : CtrlState) (hk : k ∉ rest.map Prod.fst) :
    sceneWriteCount b rest (fun c => if c = k then some ctrl' else s c)
      = sceneWriteCount b rest s := by
  induction rest with
  | nil => rfl
  | cons ca rest ih =>
      simp only [List.map_cons, List.mem_cons] at hk
      push_neg at hk
      rw [sceneWriteCount_cons, sceneWriteCount_cons]
      rw [show (if ca.1 = k then some ctrl' else s ca.1) = s ca.1 from
        if_neg (fun h => hk.1 h.symm)]
      rw [ih hk.2]

theorem applyPoseControls_foldl_eq (b : Rat)
    (ctrls : List (String × List (String × Rat))) :
    ∀ (s : Scene) (n : Nat), (ctrls.map Prod.fst).Nodup →
      (∀ ca ∈ ctrls, (ca.2.map Prod.fst).Nodup) →
      ctrls.foldl (applySceneStep b) (s, n)
        = (sceneAfter b ctrls s, n + sceneWriteCount b ctrls s) := by
  induction ctrls with
  | nil => intro s n _ _; rfl
  | cons ca rest ih =>
      intro s n hnd hnd2
      simp only [List.map_cons, List.nodup_cons] at hnd
      have hca : ca.1 ∉ rest.map Prod.fst := hnd.1
      have hstep : (ca :: rest).foldl (applySceneStep b) (s, n)
          = rest.foldl (applySceneStep b) (applySceneStep b (s, n) ca) := rfl
      cases hsc : s ca.1 with
      | none =>
          have h1 : applySceneStep b (s, n) ca = (s, n) := by
            rw [applySceneStep_def, hsc]
          rw [hstep, h1]
          rw [ih s n hnd.2 (fun x hx => hnd2 x (List.mem_cons_of_mem ca hx))]
          rw [sceneAfter_cons_none b ca rest s hsc hca]
          rw [sceneWriteCount_cons, hsc]
          dsimp only
          rw [Nat.zero_add]
      | some ctrl =>
          have hndattrs : (ca.2.map Prod.fst).Nodup := hnd2 ca (List.mem_cons_self ca rest)
          have h1 : applySceneStep b (s, n) ca
              = (fun c => if c = ca.1 then some (ctrlAfter b ca.2 ctrl) else s c,
                 n + ctrlWriteCount b ca.2 ctrl) := by
            rw [applySceneStep_def, hsc]
            dsimp only
            rw [applyAttrsToCtrl_eq b ca.2 ctrl n hndattrs]
          rw [hstep, h1]
          rw [ih (fun c => if c = ca.1 then some (ctrlAfter b ca.2 ctrl) else s c)
              (n + ctrlWriteCount b ca.2 ctrl) hnd.2
              (fun x hx => hnd2 x (List.mem_cons_of_mem ca hx))]
          rw [sceneAfter_cons_some b ca rest s ctrl hsc hca]
          rw [sceneWriteCount_update b rest s ca.1 (ctrlAfter b ca.2 ctrl) hca]
          rw [sceneWriteCount_cons, hsc]
          dsimp only
          rw [Nat.add_assoc]

theorem applyPoseControls_char (b : Rat)
    (ctrls : List (String × List (String × Rat))) (s : Scene)
    (hnd1 : (ctrls.map Prod.fst).Nodup)
    (hnd2 : ∀ ca ∈ ctrls, (ca.2.map Prod.fst).Nodup) :
    applyPoseControls b ctrls s = (sceneAfter b ctrls s, sceneWriteCount b ctrls s) := by
  unfold applyPoseControls
  rw [applyPoseControls_foldl_eq b ctrls s 0 hnd1 hnd2, Nat.zero_add]

theorem apply_scene_char (a : Animator) (pn : String) (pose : FacialPoseData)
    (hp : dictLookup pn a.saved_poses = some pose)
    (hnd1 : (pose.controls.map Prod.fst).Nodup)
    (hnd2 : ∀ ca ∈ pose.controls, (ca.2.map Prod.fst).Nodup)
    (b : Rat) (t : Scene) :
    (apply_saved_pose a t pn b).1
      = if sceneWriteCount b pose.controls t = 0 then t
        else sceneAfter b pose.controls t := by
  unfold apply_saved_pose
  rw [hp]
  dsimp only
  rw [applyPoseControls_char b pose.controls t hnd1 hnd2]
  dsimp only
  by_cases hz : sceneWriteCount b pose.controls t = 0
  · rw [if_pos hz, if_pos hz]
  · rw [if_neg hz, if_neg hz]

theorem ctrlAfter_flags (b : Rat) (attrs : List (String × Rat)) (ctrl : CtrlState)
    (nm : String) :
    ((ctrlAfter b attrs ctrl nm).map (fun st => (st.locked, st.connected)))
      = ((ctrl nm).map (fun st => (st.locked, st.connected))) := by
  unfold ctrlAfter
  cases h : dictLookup nm attrs with
  | none => rfl
  | some t =>
      cases hc : ctrl nm with
      | none => rfl
      | some st =>
          show some ((appliedAttr b t st).locked, (appliedAttr b t st).connected)
              = some (st.locked, st.connected)
          rw [(appliedAttr_flags b t st).1, (appliedAttr_flags b t st).2]

theorem ctrlWriteCount_flags_congr (b : Rat) (attrs : List (String × Rat))
    (c1 c2 : CtrlState)
    (h : ∀ nm, ((c1 nm).map (fun st => (st.locked, st.connected)))
        = ((c2 nm).map (fun st => (st.locked, st.connected)))) :
    ctrlWriteCount b attrs c1 = ctrlWriteCount b attrs c2 := by
  unfold ctrlWriteCount
  apply List.countP_congr
  intro ta hta
  have hh := h ta.1
  cases h1 : c1 ta.1 with
  | none =>
      cases h2 : c2 ta.1 with
      | none => exact Iff.rfl
      | some st2 => rw [h1, h2] at hh; simp at hh
  | some st1 =>
      cases h2 : c2 ta.1 with
      | none => rw [h1, h2] at hh; simp at hh
      | some st2 =>
          rw [h1, h2] at hh
          simp at hh
          show writesAttr b st1 = true ↔ writesAttr b st2 = true
          rw [writesAttr_congr b st2 st1 hh.1 hh.2]

theorem sceneWriteCount_sceneAfter (b : Rat)
    (ctrls : List (String × List (String × Rat))) (s : Scene) :
    sceneWriteCount b ctrls (sceneAfter b ctrls s) = sceneWriteCount b ctrls s := by
  have hpt : ∀ ca : String × List (String × Rat),
      (match sceneAfter b ctrls s ca.1 with
       | none => 0
       | some ctrl => ctrlWriteCount b ca.2 ctrl)
      = (match s ca.1 with
         | none => 0
         | some ctrl => ctrlWriteCount b ca.2 ctrl) := by
    intro ca
    unfold sceneAfter
    cases hl : dictLookup ca.1 ctrls with
    | none => rfl
    | some attrs2 =>
        cases hs : s ca.1 with
        | none => rfl
        | some ctrl =>
            show ctrlWriteCount b ca.2 (ctrlAfter b attrs2 ctrl)
                = ctrlWriteCount b ca.2 ctrl
            exact ctrlWriteCount_flags_congr b ca.2 (ctrlAfter b attrs2 ctrl) ctrl
              (fun nm => ctrlAfter_flags b attrs2 ctrl nm)
  unfold sceneWriteCount
  rw [funext hpt]

theorem appliedAttr_one_idem (t : Rat) (st : AttrState) :
    appliedAttr 1 t (appliedAttr 1 t st) = appliedAttr 1 t st := by
  unfold appliedAttr applyAttrOnce
  by_cases hl : st.locked || st.connected
  · simp [hl]
  · simp [hl]

theorem ctrlAfter_one_idem (attrs : List (String × Rat)) (ctrl : CtrlState) :
    ctrlAfter 1 attrs (ctrlAfter 1 attrs ctrl) = ctrlAfter 1 attrs ctrl := by
  funext nm
  unfold ctrlAfter
  cases h : dictLookup nm attrs with
  | none => rfl
  | some t =>
      cases hc : ctrl nm with
      | none => rfl
      | some st =>
          show some (appliedAttr 1 t (appliedAttr 1 t st)) = some (appliedAttr 1 t st)
          rw [appliedAttr_one_idem]

theorem sceneAfter_one_idem (ctrls : List (String × List (String × Rat))) (s : Scene) :
    sceneAfter 1 ctrls (sceneAfter 1 ctrls s) = sceneAfter 1 ctrls s := by
  funext c
  unfold sceneAfter
  cases h : dictLookup c ctrls with
  | none => rfl
  | some attrs =>
      cases hs : s c with
      | none => rfl
      | some ctrl =>
          show some (ctrlAfter 1 attrs (ctrlAfter 1 attrs ctrl))
              = some (ctrlAfter 1 attrs ctrl)
          rw [ctrlAfter_one_idem]

/-- C3 (confirmed): for a settable attribute entry of a stored pose with
target `t` and current value `c`, `apply_saved_pose` leaves the scene
unchanged for `blend_factor ≤ 0.0`, writes exactly `t` for
`blend_factor = 1.0`, and writes `c + (t - c) * b` for intermediate `b`. -/
theorem apply_blend_boundary (a : Animator) (s : Scene) (pn : String)
    (pose : FacialPoseData)
    (hp : dictLookup pn a.saved_poses = some pose)
    (hnd1 : (pose.controls.map Prod.fst).Nodup)
    (hnd2 : ∀ ca ∈ pose.controls, (ca.2.map Prod.fst).Nodup)
    (cName aName : String) (attrs : List (String × Rat)) (t : Rat)
    (hc : dictLookup cName pose.controls = some attrs)
    (ha : dictLookup aName attrs = some t)
    (ctrl : CtrlState) (st : AttrState)
    (hsc : s cName = some ctrl) (hsa : ctrl aName = some st)
    (hlk : st.locked = false) (hcn : st.connected = false) (b : Rat) :
    (b ≤ 0 → (apply_saved_pose a s pn b).1 = s)
  ∧ (b = 1 → ((apply_saved_pose a s pn b).1 cName).map (fun cc => cc aName)
        = some (some { st with value := t }))
  ∧ (0 < b → b < 1 →
      ((apply_saved_pose a s pn b).1 cName).map (fun cc => cc aName)
        = some (some { st with value := st.value + (t - st.value) * b })) := by
  have hpos : ∀ b2 : Rat, 0 < b2 → sceneWriteCount b2 pose.controls s ≠ 0 := by
    intro b2 hb2
    have hmema : (aName, t) ∈ attrs := dictLookup_some_mem aName t attrs ha
    have hcw : 0 < ctrlWriteCount b2 attrs ctrl := by
      unfold ctrlWriteCount
      apply List.countP_pos_iff.mpr
      refine ⟨(aName, t), hmema, ?_⟩
      show (match ctrl aName with
            | some st => writesAttr b2 st
            | none => false) = true
      rw [hsa]
      show writesAttr b2 st = true
      unfold writesAttr
      rw [hlk, hcn]
      simp [hb2]
    have hmemc : (cName, attrs) ∈ pose.controls :=
      dictLookup_some_mem cName attrs pose.controls hc
    intro h0
    unfold sceneWriteCount at h0
    have helem : ctrlWriteCount b2 attrs ctrl
        ∈ pose.controls.map (fun ca =>
            match s ca.1 with
            | none => 0
            | some ctrl => ctrlWriteCount b2 ca.2 ctrl) := by
      apply List.mem_map.mpr
      refine ⟨(cName, attrs), hmemc, ?_⟩
      show (match s cName with
            | none => 0
            | some ctrl => ctrlWriteCount b2 attrs ctrl) = ctrlWriteCount b2 attrs ctrl
      rw [hsc]
    have hle := List.single_le_sum (fun y _ => Nat.zero_le y) _ helem
    rw [h0] at hle
    omega
  refine ⟨?_, ?_, ?_⟩
  · intro hb
    unfold apply_saved_pose
    rw [hp]
    dsimp only
    rw [applyPoseControls_nonpos b hb]
    rfl
  · intro hb
    subst hb
    rw [apply_scene_char a pn pose hp hnd1 hnd2 1 s]
    rw [if_neg (hpos 1 one_pos)]
    have hAt : sceneAfter 1 pose.controls s cName = some (ctrlAfter 1 attrs ctrl) := by
      unfold sceneAfter
      rw [hc, hsc]
      rfl
    rw [hAt]
    show some (ctrlAfter 1 attrs ctrl aName) = some (some { st with value := t })
    have hAt2 : ctrlAfter 1 attrs ctrl aName = some (appliedAttr 1 t st) := by
      unfold ctrlAfter
      rw [ha, hsa]
      rfl
    rw [hAt2]
    have happ : appliedAttr 1 t st = { st with value := t } := by
      unfold appliedAttr applyAttrOnce
      rw [hlk, hcn]
      simp
    rw [happ]
  · intro hb0 hb1
    rw [apply_scene_char a pn pose hp hnd1 hnd2 b s]
    rw [if_neg (hpos b hb0)]
    have hAt : sceneAfter b pose.controls s cName = some (ctrlAfter b attrs ctrl) := by
      unfold sceneAfter
      rw [hc, hsc]
      rfl
    rw [hAt]
    show some (ctrlAfter b attrs ctrl aName)
        = some (some { st with value := st.value + (t - st.value) * b })
    have hAt2 : ctrlAfter b attrs ctrl aName = some (appliedAttr b t st) := by
      unfold ctrlAfter
      rw [ha, hsa]
      rfl
    rw [hAt2]
    have happ : appliedAttr b t st
        = { st with value := st.value + (t - st.value) * b } := by
      unfold appliedAttr applyAttrOnce
      rw [hlk, hcn]
      have h1 : ¬((1 : Rat) ≤ b) := not_le.mpr hb1
      have h2 : ¬(b ≤ 0) := not_le.mpr hb0
      simp [h1, h2]
    rw [happ]

/-- C3 witness: the theorem at the concrete pose and scene, for blend
factors 0, 1, and 1/4. -/
theorem apply_blend_boundary_witness :
    ((apply_saved_pose c3Animator c3Scene "Smile" 0).1 = c3Scene)
  ∧ (((apply_saved_pose c3Animator c3Scene "Smile" 1).1 "face_CTRL").map
        (fun cc => cc "translateX")
      = some (some { value := 1 / 2, locked := false, connected := false }))
  ∧ (((apply_saved_pose c3Animator c3Scene "Smile" (1 / 4)).1 "face_CTRL").map
        (fun cc => cc "translateX")
      = some (some { value := 0 + (1 / 2 - 0) * (1 / 4), locked := false,
                     connected := false })) :=
  ⟨(apply_blend_boundary c3Animator c3Scene "Smile"
      { name := "Smile"
        attribute_name := "Smile"
        controls := [("face_CTRL", [("translateX", 1 / 2)])] }
      rfl (by decide) (by decide) "face_CTRL" "translateX"
      [("translateX", 1 / 2)] (1 / 2) rfl rfl
      (fun x => if x = "translateX" then some { value := 0 } else none)
      { value := 0 } rfl rfl rfl rfl 0).1 (le_refl 0),
   (apply_blend_boundary c3Animator c3Scene "Smile"
      { name := "Smile"
        attribute_name := "Smile"
        controls := [("face_CTRL", [("translateX", 1 / 2)])] }
      rfl (by decide) (by decide) "face_CTRL" "translateX"
      [("translateX", 1 / 2)] (1 / 2) rfl rfl
      (fun x => if x = "translateX" then some { value := 0 } else none)
      { value := 0 } rfl rfl rfl rfl 1).2.1 rfl,
   (apply_blend_boundary c3Animator c3Scene "Smile"
      { name := "Smile"
        attribute_name := "Smile"
        controls := [("face_CTRL", [("translateX", 1 / 2)])] }
      rfl (by decide) (by decide) "face_CTRL" "translateX"
      [("translateX", 1 / 2)] (1 / 2) rfl rfl
      (fun x => if x = "translateX" then some { value := 0 } else none)
      { value := 0 } rfl rfl rfl rfl (1 / 4)).2.2 (by norm_num) (by norm_num)⟩

/-- C4 (confirmed): applying a stored pose twice with blend factor 1.0
yields the same final scene as applying it once. -/
theorem apply_pose_idempotent (a : Animator) (s : Scene) (pn : String)
    (hnd : ∀ pose, dictLookup pn a.saved_poses = some pose →
        (pose.controls.map Prod.fst).Nodup
        ∧ ∀ ca ∈ pose.controls, (ca.2.map Prod.fst).Nodup) :
    (apply_saved_pose a (apply_saved_pose a s pn 1).1 pn 1).1
      = (apply_saved_pose a s pn 1).1 := by
  cases hp : dictLookup pn a.saved_poses with
  | none =>
      unfold apply_saved_pose
      rw [hp]
  | some pose =>
      obtain ⟨hnd1, hnd2⟩ := hnd pose hp
      have hchar := apply_scene_char a pn pose hp hnd1 hnd2 1
      have h1 : (apply_saved_pose a s pn 1).1
          = if sceneWriteCount 1 pose.controls s = 0 then s
            else sceneAfter 1 pose.controls s := hchar s
      by_cases hz : sceneWriteCount 1 pose.controls s = 0
      · have hXs : (apply_saved_pose a s pn 1).1 = s := by rw [h1, if_pos hz]
        rw [hXs]
        exact hXs
      · have hXs : (apply_saved_pose a s pn 1).1 = sceneAfter 1 pose.controls s := by
          rw [h1, if_neg hz]
        rw [hXs]
        rw [hchar (sceneAfter 1 pose.controls s)]
        rw [sceneWriteCount_sceneAfter]
        rw [if_neg hz]
        exact sceneAfter_one_idem pose.controls s

/-- C4 witness: the theorem at the concrete animator and scene. -/
theorem apply_pose_idempotent_witness :
    (apply_saved_pose c4Animator
        (apply_saved_pose c4Animator c3Scene "Smile" 1).1 "Smile" 1).1
      = (apply_saved_pose c4Animator c3Scene "Smile" 1).1 :=
  apply_pose_idempotent c4Animator c3Scene "Smile" (fun pose h => by
    rw [show dictLookup "Smile" c4Animator.saved_poses
        = some { name := "Smile"
                 attribute_name := "Smile"
                 controls := [("face_CTRL", [("translateX", 1 / 2)])] } from rfl] at h
    injection h with h2
    subst h2
    exact ⟨by decide, by decide⟩)

/-! ## Claim C7: name sanitization -/

theorem isDigit_not_isAlpha (c : Char) (h : c.isDigit = true) : c.isAlpha = false := by
  cases ha : c.isAlpha
  · rfl
  · exfalso
    simp only [Char.isDigit, ge_iff_le, Bool.and_eq_true, decide_eq_true_eq] at h
    simp only [Char.isAlpha, Char.isUpper, Char.isLower, ge_iff_le, Bool.or_eq_true,
      Bool.and_eq_true, decide_eq_true_eq] at ha
    have h2 : c.val.toNat ≤ 57 := h.2
    rcases ha with ⟨h65, h90⟩ | ⟨h97, h122⟩
    · have h3 : 65 ≤ c.val.toNat := h65
      omega
    · have h3 : 97 ≤ c.val.toNat := h97
      omega

theorem isDigit_ne_underscore (c : Char) (h : c.isDigit = true) : c ≠ '_' := by
  intro he
  rw [he] at h
  simp [Char.isDigit] at h

theorem replaceNonAlnum_eq (l : List Char) :
    replaceNonAlnum l = l.map (fun c => if c.isAlpha ∨ c.isDigit then c else '_') := by
  unfold replaceNonAlnum
  have hfun : (fun c : Char => if c.isAlpha ∨ c.isDigit ∨ c = '_' then c else '_')
      = (fun c : Char => if c.isAlpha ∨ c.isDigit then c else '_') := by
    funext c
    by_cases h : c.isAlpha = true ∨ c.isDigit = true
    · rcases h with h1 | h1
      · rw [if_pos (Or.inl h1), if_pos (Or.inl h1)]
      · rw [if_pos (Or.inr (Or.inl h1)), if_pos (Or.inr h1)]
    · by_cases hu : c = '_'
      · rw [if_pos (Or.inr (Or.inr hu)), if_neg h, hu]
      · rw [if_neg (fun hh => hh.elim (fun h1 => h (Or.inl h1))
          (fun hh2 => hh2.elim (fun h2 => h (Or.inr h2)) hu)), if_neg h]
  rw [hfun]

theorem collapseSpec_cons (c : Char) (l : List Char) :
    collapseSpec (c :: l)
      = if c = '_' ∧ (collapseSpec l).head? = some '_' then collapseSpec l
        else c :: collapseSpec l := rfl

theorem collapseSpec_head (c : Char) (l : List Char) :
    (collapseSpec (c :: l)).head? = some c := by
  rw [collapseSpec_cons]
  by_cases h : c = '_' ∧ (collapseSpec l).head? = some '_'
  · rw [if_pos h, h.2, h.1]
  · rw [if_neg h]
    rfl

theorem collapseUnderscores_eq_spec : ∀ l : List Char,
    collapseUnderscores l = collapseSpec l := by
  intro l
  induction l with
  | nil => rfl
  | cons c l ih =>
      cases l with
      | nil =>
          rw [show collapseUnderscores [c] = [c] from rfl, collapseSpec_cons]
          rw [if_neg (fun h => absurd h.2 (by decide))]
          rfl
      | cons c2 l2 =>
          rw [show collapseUnderscores (c :: c2 :: l2)
              = (if c = '_' ∧ c2 = '_' then collapseUnderscores (c2 :: l2)
                 else c :: collapseUnderscores (c2 :: l2)) from rfl]
          rw [collapseSpec_cons, collapseSpec_head]
          by_cases h : c = '_' ∧ c2 = '_'
          · rw [if_pos h, if_pos ⟨h.1, by rw [h.2]⟩, ih]
          · rw [if_neg h, if_neg (fun hx => h ⟨hx.1, Option.some.inj hx.2⟩), ih]

theorem mem_collapseUnderscores : ∀ (l : List Char) (x : Char),
    x ∈ collapseUnderscores l → x ∈ l := by
  intro l
  induction l with
  | nil => intro x hx; exact hx
  | cons c l ih =>
      cases l with
      | nil => intro x hx; exact hx
      | cons c2 l2 =>
          intro x hx
          rw [show collapseUnderscores (c :: c2 :: l2)
              = (if c = '_' ∧ c2 = '_' then collapseUnderscores (c2 :: l2)
                 else c :: collapseUnderscores (c2 :: l2)) from rfl] at hx
          by_cases h : c = '_' ∧ c2 = '_'
          · rw [if_pos h] at hx
            exact List.mem_cons_of_mem c (ih x hx)
          · rw [if_neg h] at hx
            rcases List.mem_cons.mp hx with h1 | h1
            · exact h1 ▸ List.mem_cons_self x (c2 :: l2)
            · exact List.mem_cons_of_mem c (ih x h1)

theorem mem_stripUnderscores (l : List Char) (x : Char) (h : x ∈ stripUnderscores l) :
    x ∈ l := by
  unfold stripUnderscores at h
  rw [List.mem_reverse] at h
  have h2 : x ∈ (l.dropWhile (fun c => c = '_')).reverse :=
    (List.dropWhile_sublist _).subset h
  rw [List.mem_reverse] at h2
  exact (List.dropWhile_sublist _).subset h2

theorem mem_map_alnum (l : List Char) (x : Char)
    (h : x ∈ l.map (fun c => if c.isAlpha ∨ c.isDigit then c else '_')) :
    x.isAlpha = true ∨ x.isDigit = true ∨ x = '_' := by
  rcases List.mem_map.mp h with ⟨y, _, rfl⟩
  by_cases hy : y.isAlpha = true ∨ y.isDigit = true
  · rw [if_pos hy]
    rcases hy with h1 | h1
    · exact Or.inl h1
    · exact Or.inr (Or.inl h1)
  · rw [if_neg hy]
    exact Or.inr (Or.inr rfl)

/-- C7 counterexample: `.strip('_')` makes the code differ from the
claim's description — on `"a!"` the code yields `"a"` while the described
algorithm (replace, collapse, digit prefix) yields `"a_"`. -/
theorem sanitize_strip_cex :
    sanitize_pose_name_for_attr "a!" = "a"
  ∧ sanitizeSpecClaim "a!" = "a_"
  ∧ sanitize_pose_name_for_attr "a!" ≠ sanitizeSpecClaim "a!" := by
  refine ⟨rfl, rfl, ?_⟩
  decide

/-- C7 (amended): the sanitizer replaces each non-alphanumeric character
with an underscore, collapses each run of consecutive underscores into
one, strips leading and trailing underscores, prefixes `pose_` when the
remaining name begins with a digit, and falls back to `custom_pose` when
nothing remains; in particular `"Happy Smile!"` sanitizes to
`"Happy_Smile"`. -/
theorem sanitize_pose_name_amended (s : String) :
    sanitize_pose_name_for_attr s = sanitizeSpecAmended s
  ∧ sanitize_pose_name_for_attr "Happy Smile!" = "Happy_Smile" := by
  constructor
  · simp only [sanitize_pose_name_for_attr, sanitizeSpecAmended]
    rw [replaceNonAlnum_eq s.toList]
    rw [← collapseUnderscores_eq_spec]
    have hmem : ∀ x ∈ stripUnderscores (collapseUnderscores
        (s.toList.map (fun c => if c.isAlpha ∨ c.isDigit then c else '_'))),
        x.isAlpha = true ∨ x.isDigit = true ∨ x = '_' := by
      intro x hx
      exact mem_map_alnum _ x (mem_collapseUnderscores _ x (mem_stripUnderscores _ x hx))
    generalize hS : stripUnderscores (collapseUnderscores
        (s.toList.map (fun c => if c.isAlpha ∨ c.isDigit then c else '_'))) = S3
    rw [hS] at hmem
    cases S3 with
    | nil => rfl
    | cons c rest =>
        have hc := hmem c (List.mem_cons_self c rest)
        by_cases hd : c.isDigit = true
        · have hna : c.isAlpha = false := isDigit_not_isAlpha c hd
          have hcond : ¬(c.isAlpha = true) ∧ c ≠ '_' :=
            ⟨by rw [hna]; simp, isDigit_ne_underscore c hd⟩
          dsimp only
          simp only [List.head?_cons]
          rw [if_pos hcond, if_pos hd]
          rw [if_neg (show ¬(("pose_".toList ++ c :: rest) = []) by simp)]
          rw [if_neg (show ¬(("pose_".toList ++ c :: rest).isEmpty = true) by simp)]
        · have hcond : ¬(¬(c.isAlpha = true) ∧ c ≠ '_') := by
            rintro ⟨hna, hnu⟩
            rcases hc with h1 | h1 | h1
            · exact hna h1
            · exact hd h1
            · exact hnu h1
          dsimp only
          simp only [List.head?_cons]
          rw [if_neg hcond, if_neg hd]
          rw [if_neg (show ¬((c :: rest) = []) by simp)]
          rw [if_neg (show ¬((c :: rest).isEmpty = true) by simp)]
  · rfl

end FacialPoseCreator
